import Mathlib

/-!
The sampling cycle of mysqlrouter_exporter (`main.go`)

A shallow embedding of the polling loop of `src/main.go` (lines 159-245): one iteration of the
`for` loop walks router status, metadata and routes through the management API client and writes
the result into the seventeen gauge families declared at lines 18-115.

* Go `int` and `int64` values are `Int`; the one arithmetic expression of the loop,
  `t.Unix() * 1000`, wraps at 64 bits (`wrapInt64`).
* A gauge holds a `float64`. The conversion of the `int64` product `t.Unix() * 1000`
  (lines 237-240) is `float64`: the rounding of an integer to 53 significant bits, whose
  result is again an integer, so the registry holds the value of the stored float exactly.
  The counts of the response fields (lines 208-210, 235-236) are stored as they are.
* `panic` ends the cycle: a step returns how it ended together with the state it reached.
* The client is the set of responses the router gives while one cycle runs: a response
  depends on the request only.
* `Time.String` belongs to the standard library; the loop takes it as the parameter
  `timeString`.
* The state carries, next to the registry, the record of the requests sent and of the series
  obtained and stored into, in order; the loop never reads it.

The definitions come first: the responses, the client, the gauge families, the registry, the
loop, then what is needed to state the properties, and the example clients. The theorems
follow: how steps compose, how a recorded run replays on the registry, the loop bodies, the
whole cycle, and the properties of the cycle.
-/

namespace MysqlRouterExporter

/-! ## Values returned by the management API client -/

/-- A `time.Time` instant: whole seconds since the Unix epoch and the nanoseconds within that
second (`0 ≤ nsec < 10^9`). -/
structure Time where
  sec : Int
  nsec : Nat
deriving DecidableEq, Repr

/-- `Time.Unix()`: the seconds elapsed since the epoch; the sub-second part is dropped. -/
def Time.Unix (t : Time) : Int := t.sec

/-- `Time.UnixMilli()`: the milliseconds elapsed since the epoch. -/
def Time.UnixMilli (t : Time) : Int := t.sec * 1000 + ((t.nsec / 1000000 : Nat) : Int)

/-- Two's complement wrap of an `int64` result. -/
def wrapInt64 (x : Int) : Int := (x + 2 ^ 63) % 2 ^ 64 - 2 ^ 63

/-- The number of low bits that the rounding to 53 significant bits drops from a magnitude
above `2 ^ 53` (at most 11 for an `int64`). -/
def roundShift (a : Nat) : Nat :=
  ((List.range 11).find? fun e => decide (a / 2 ^ e < 2 ^ 53)).getD 11

/-- `float64(n)` for an `int64` value `n`: the nearest number with 53 significant bits, the
even one of two that are equally near. Up to `2 ^ 53` in magnitude it is `n` itself; above,
the low bits are rounded away and the result is still an integer. -/
def float64 (n : Int) : Int :=
  if n.natAbs ≤ 2 ^ 53 then n
  else
    let e := roundShift n.natAbs
    let q := n.natAbs / 2 ^ e
    let r := n.natAbs % 2 ^ e
    let up := decide (2 ^ e < 2 * r) || (decide (2 * r = 2 ^ e) && decide (q % 2 = 1))
    n.sign * (((if up then q + 1 else q) * 2 ^ e : Nat) : Int)

/-- `strconv.Itoa`: the decimal rendering of an integer. -/
def Itoa (n : Int) : String := toString n

structure Router where
  ProcessID : Int
  ProductEdition : String
  TimeStarted : Time
  Version : String
  Hostname : String
deriving DecidableEq, Repr

structure Metadata where
  Name : String
deriving DecidableEq, Repr

structure MetadataConfigNode where
  Hostname : String
  Port : Int
deriving DecidableEq, Repr

structure MetadataConfig where
  ClusterName : String
  TimeRefreshInMs : Int
  GroupReplicationID : String
  Nodes : List MetadataConfigNode
deriving DecidableEq, Repr

structure MetadataStatus where
  RefreshFailed : Int
  TimeLastRefreshSucceeded : Time
  LastRefreshHostname : String
  LastRefreshPort : Int
deriving DecidableEq, Repr

structure Routes where
  Name : String
deriving DecidableEq, Repr

structure RouteStatus where
  ActiveConnections : Int
  TotalConnections : Int
  BlockedHosts : Int
deriving DecidableEq, Repr

structure RouteHealth where
  IsAlive : Bool
deriving DecidableEq, Repr

structure RouteDestinations where
  Address : String
  Port : Int
deriving DecidableEq, Repr

structure RouteConnections where
  BytesFromServer : Int
  BytesToServer : Int
  SourceAddress : String
  DestinationAddress : String
  TimeStarted : Time
  TimeConnectedToServer : Time
  TimeLastSentToServer : Time
  TimeLastReceivedFromServer : Time
deriving DecidableEq, Repr

/-! ## The client -/

/-- The nine requests the loop sends. -/
inductive Call where
  | GetRouterStatus
  | GetAllMetadata
  | GetMetadataConfig (name : String)
  | GetMetadataStatus (name : String)
  | GetAllRoutes
  | GetRouteStatus (name : String)
  | GetRouteHealth (name : String)
  | GetRouteDestinations (name : String)
  | GetRouteConnections (name : String)
deriving DecidableEq, Repr

/-- The type of the value a request returns. -/
@[reducible] def Call.Response : Call → Type
  | .GetRouterStatus => Router
  | .GetAllMetadata => List Metadata
  | .GetMetadataConfig _ => MetadataConfig
  | .GetMetadataStatus _ => MetadataStatus
  | .GetAllRoutes => List Routes
  | .GetRouteStatus _ => RouteStatus
  | .GetRouteHealth _ => RouteHealth
  | .GetRouteDestinations _ => List RouteDestinations
  | .GetRouteConnections _ => List RouteConnections

/-- The client `mr` of `main`: each method returns a value or an error (its message). -/
structure RouterClient where
  GetRouterStatus : Except String Router
  GetAllMetadata : Except String (List Metadata)
  GetMetadataConfig : String → Except String MetadataConfig
  GetMetadataStatus : String → Except String MetadataStatus
  GetAllRoutes : Except String (List Routes)
  GetRouteStatus : String → Except String RouteStatus
  GetRouteHealth : String → Except String RouteHealth
  GetRouteDestinations : String → Except String (List RouteDestinations)
  GetRouteConnections : String → Except String (List RouteConnections)

/-- The response of the client to a request. -/
def RouterClient.invoke (mr : RouterClient) : (call : Call) → Except String call.Response
  | .GetRouterStatus => mr.GetRouterStatus
  | .GetAllMetadata => mr.GetAllMetadata
  | .GetMetadataConfig name => mr.GetMetadataConfig name
  | .GetMetadataStatus name => mr.GetMetadataStatus name
  | .GetAllRoutes => mr.GetAllRoutes
  | .GetRouteStatus name => mr.GetRouteStatus name
  | .GetRouteHealth name => mr.GetRouteHealth name
  | .GetRouteDestinations name => mr.GetRouteDestinations name
  | .GetRouteConnections name => mr.GetRouteConnections name

/-- The error a request ends in, if it fails. -/
def RouterClient.errorOf (mr : RouterClient) (call : Call) : Option String :=
  match mr.invoke call with
  | .ok _ => none
  | .error e => some e

/-! ## Gauge families (main.go, lines 18-115) -/

inductive Family where
  | routerStatusGauge
  | metadataGauge
  | metadataConfigGauge
  | metadataConfigNodeGauge
  | metadataStatusGauge
  | routeGauge
  | routeActiveConnectionsGauge
  | routeTotalConnectionsGauge
  | routeBlockedHostsGauge
  | routeHealthGauge
  | routeDestinationsGauge
  | routeConnectionsByteFromServerGauge
  | routeConnectionsByteToServerGauge
  | routeConnectionsTimeStartedGauge
  | routeConnectionsTimeConnectedToServerGauge
  | routeConnectionsTimeLastSentToServerGauge
  | routeConnectionsTimeLastReceivedFromServerGauge
deriving DecidableEq, Repr

/-- The label names each family is declared with. -/
def Family.labelNames : Family → List String
  | .routerStatusGauge => ["process_id", "product_edition", "time_started", "version", "hostname"]
  | .metadataGauge => ["name"]
  | .metadataConfigGauge => ["name", "cluster_name", "time_refresh_in_ms", "group_replication_id"]
  | .metadataConfigNodeGauge => ["name", "router_host", "cluster_name", "hostname", "port"]
  | .metadataStatusGauge =>
      ["name", "refresh_failed", "time_last_refresh_succeeded", "last_refresh_hostname",
        "last_refresh_port"]
  | .routeGauge => ["name"]
  | .routeActiveConnectionsGauge => ["name", "router_hostname"]
  | .routeTotalConnectionsGauge => ["name", "router_hostname"]
  | .routeBlockedHostsGauge => ["name", "router_hostname"]
  | .routeHealthGauge => ["name", "router_hostname"]
  | .routeDestinationsGauge => ["name", "address", "port"]
  | .routeConnectionsByteFromServerGauge =>
      ["name", "router_hostname", "source_address", "destination_address"]
  | .routeConnectionsByteToServerGauge =>
      ["name", "router_hostname", "source_address", "destination_address"]
  | .routeConnectionsTimeStartedGauge =>
      ["name", "router_hostname", "source_address", "destination_address"]
  | .routeConnectionsTimeConnectedToServerGauge =>
      ["name", "router_hostname", "source_address", "destination_address"]
  | .routeConnectionsTimeLastSentToServerGauge =>
      ["name", "router_hostname", "source_address", "destination_address"]
  | .routeConnectionsTimeLastReceivedFromServerGauge =>
      ["name", "router_hostname", "source_address", "destination_address"]

/-! ## The metric registry -/

/-- Modelled from the spec: the gauge registry (the Prometheus client library, not part of the
repository's files). Each family maps a label tuple to the value of its series; a tuple that was
never used has no series. -/
def MetricSet : Type := Family → List String → Option Int

/-- Modelled from the spec: the registry at process start, with no series. -/
def MetricSet.empty : MetricSet := fun _ _ => none

/-- Modelled from the spec: get-or-create of a series. An absent series is created with the
default value zero; an existing one keeps its value. -/
def MetricSet.getOrCreate (ms : MetricSet) (family : Family) (labels : List String) : MetricSet :=
  fun f l =>
    if f = family ∧ l = labels then
      match ms f l with
      | some v => some v
      | none => some 0
    else ms f l

/-- Modelled from the spec: overwrite of the value of one series (last write wins). -/
def MetricSet.store (ms : MetricSet) (family : Family) (labels : List String) (v : Int) :
    MetricSet :=
  fun f l => if f = family ∧ l = labels then some v else ms f l

/-! ## The sampler -/

/-- What the loop does that is visible from outside: a request sent to the router, a series
obtained with `WithLabelValues`, a value stored with `Set`. -/
inductive Event where
  | fetch (call : Call)
  | touch (family : Family) (labels : List String)
  | set (family : Family) (labels : List String) (value : Int)
deriving DecidableEq, Repr

/-- The two ways a cycle panics: `panic(err)` after a failed request, and the panic of
`WithLabelValues` on a label tuple of the wrong length. -/
inductive Failure where
  | fetchError (call : Call) (err : String)
  | invalidLabelCardinality (family : Family) (labels : List String)
deriving DecidableEq, Repr

/-- The state a cycle works on: the registry, and the record of the events so far. -/
structure SamplerState where
  metrics : MetricSet
  log : List Event

/-- The state at process start. -/
def SamplerState.init : SamplerState := ⟨MetricSet.empty, []⟩

/-- A step of the loop: it ends normally with a value or panics, and leaves a state. -/
def Sampler (α : Type) : Type := SamplerState → Except Failure α × SamplerState

/-- Normal end with a value. -/
def Sampler.ret {α : Type} (a : α) : Sampler α := fun s => (.ok a, s)

/-- Sequencing: a panic of the first step skips the rest. -/
def Sampler.andThen {α β : Type} (m : Sampler α) (f : α → Sampler β) : Sampler β := fun s =>
  match m s with
  | (.ok a, s') => f a s'
  | (.error e, s') => (.error e, s')

instance : Monad Sampler where
  pure := Sampler.ret
  bind := Sampler.andThen

/-- A request followed by `if err != nil { panic(err) }`. -/
def fetch (mr : RouterClient) (call : Call) : Sampler call.Response := fun s =>
  match mr.invoke call with
  | .ok a => (.ok a, ⟨s.metrics, s.log ++ [Event.fetch call]⟩)
  | .error e => (.error (.fetchError call e), ⟨s.metrics, s.log ++ [Event.fetch call]⟩)

/-- The handle `WithLabelValues` returns: one series of one family. -/
structure Gauge where
  family : Family
  labels : List String
deriving DecidableEq, Repr

/-- Modelled from the spec: `GaugeVec.WithLabelValues`. A tuple whose length differs from the
number of declared label names fails with the cardinality error and leaves the registry
unchanged; otherwise the series is obtained, and created when absent. -/
def WithLabelValues (family : Family) (labels : List String) : Sampler Gauge := fun s =>
  if labels.length = family.labelNames.length then
    (.ok ⟨family, labels⟩,
      ⟨s.metrics.getOrCreate family labels, s.log ++ [Event.touch family labels]⟩)
  else (.error (.invalidLabelCardinality family labels), s)

/-- Modelled from the spec: `Gauge.Set`, the overwrite of the value of the series. -/
def Gauge.Set (g : Gauge) (v : Int) : Sampler Unit := fun s =>
  (.ok (), ⟨s.metrics.store g.family g.labels v, s.log ++ [Event.set g.family g.labels v]⟩)

/-- A `for _, x := range xs` loop. -/
def forEach {α : Type} (xs : List α) (body : α → Sampler Unit) : Sampler Unit :=
  match xs with
  | [] => pure ()
  | x :: rest => do
      body x
      forEach rest body

/-- Body of the config-node loop (main.go, line 185). -/
def sampleConfigNode (router : Router) (m : Metadata) (mc : MetadataConfig)
    (node : MetadataConfigNode) : Sampler Unit := do
  let _series ← WithLabelValues .metadataConfigNodeGauge
    [m.Name, router.Hostname, mc.ClusterName, node.Hostname, Itoa node.Port]

/-- Body of the metadata loop (main.go, lines 174-193). `timeString` is `Time.String`. -/
def sampleMetadata (timeString : Time → String) (mr : RouterClient) (router : Router)
    (m : Metadata) : Sampler Unit := do
  let _series ← WithLabelValues .metadataGauge [m.Name]
  -- config
  let mc ← fetch mr (.GetMetadataConfig m.Name)
  let _series ← WithLabelValues .metadataConfigGauge
    [m.Name, mc.ClusterName, Itoa mc.TimeRefreshInMs, mc.GroupReplicationID]
  -- config node
  forEach mc.Nodes (sampleConfigNode router m mc)
  -- status
  let ms ← fetch mr (.GetMetadataStatus m.Name)
  let _series ← WithLabelValues .metadataStatusGauge
    [m.Name, Itoa ms.RefreshFailed, timeString ms.TimeLastRefreshSucceeded,
      ms.LastRefreshHostname, Itoa ms.LastRefreshPort]

/-- Body of the destinations loop (main.go, line 227). -/
def sampleDestination (route : Routes) (d : RouteDestinations) : Sampler Unit := do
  let _series ← WithLabelValues .routeDestinationsGauge [route.Name, d.Address, Itoa d.Port]

/-- Body of the connections loop (main.go, lines 235-240). -/
def sampleConnection (router : Router) (route : Routes) (c : RouteConnections) :
    Sampler Unit := do
  (← WithLabelValues .routeConnectionsByteFromServerGauge
    [route.Name, router.Hostname, c.SourceAddress, c.DestinationAddress]).Set c.BytesFromServer
  (← WithLabelValues .routeConnectionsByteToServerGauge
    [route.Name, router.Hostname, c.SourceAddress, c.DestinationAddress]).Set c.BytesToServer
  (← WithLabelValues .routeConnectionsTimeStartedGauge
    [route.Name, router.Hostname, c.SourceAddress, c.DestinationAddress]).Set
      (float64 (wrapInt64 (c.TimeStarted.Unix * 1000)))
  (← WithLabelValues .routeConnectionsTimeConnectedToServerGauge
    [route.Name, router.Hostname, c.SourceAddress, c.DestinationAddress]).Set
      (float64 (wrapInt64 (c.TimeConnectedToServer.Unix * 1000)))
  (← WithLabelValues .routeConnectionsTimeLastSentToServerGauge
    [route.Name, router.Hostname, c.SourceAddress, c.DestinationAddress]).Set
      (float64 (wrapInt64 (c.TimeLastSentToServer.Unix * 1000)))
  (← WithLabelValues .routeConnectionsTimeLastReceivedFromServerGauge
    [route.Name, router.Hostname, c.SourceAddress, c.DestinationAddress]).Set
      (float64 (wrapInt64 (c.TimeLastReceivedFromServer.Unix * 1000)))

/-- Body of the routes loop (main.go, lines 202-241). -/
def sampleRoute (mr : RouterClient) (router : Router) (route : Routes) : Sampler Unit := do
  let _series ← WithLabelValues .routeGauge [route.Name]
  let rs ← fetch mr (.GetRouteStatus route.Name)
  (← WithLabelValues .routeActiveConnectionsGauge [route.Name, router.Hostname]).Set
    rs.ActiveConnections
  (← WithLabelValues .routeTotalConnectionsGauge [route.Name, router.Hostname]).Set
    rs.TotalConnections
  (← WithLabelValues .routeBlockedHostsGauge [route.Name, router.Hostname]).Set rs.BlockedHosts
  let rh ← fetch mr (.GetRouteHealth route.Name)
  if rh.IsAlive then
    (← WithLabelValues .routeHealthGauge [route.Name, router.Hostname]).Set 1
  else
    (← WithLabelValues .routeHealthGauge [route.Name]).Set 0
  let rd ← fetch mr (.GetRouteDestinations route.Name)
  forEach rd (sampleDestination route)
  let rc ← fetch mr (.GetRouteConnections route.Name)
  forEach rc (sampleConnection router route)

/-- The part of a cycle that follows the router status request (main.go, lines 166-242). -/
def sampleAll (timeString : Time → String) (mr : RouterClient) (router : Router) :
    Sampler Unit := do
  let _series ← WithLabelValues .routerStatusGauge
    [Itoa router.ProcessID, router.ProductEdition, timeString router.TimeStarted,
      router.Version, router.Hostname]
  -- Metadata
  let metadata ← fetch mr .GetAllMetadata
  forEach metadata (sampleMetadata timeString mr router)
  -- Routes
  let routes ← fetch mr .GetAllRoutes
  forEach routes (sampleRoute mr router)

/-- One iteration of the loop of `main` (main.go, lines 161-242), up to the sleep. -/
def cycle (timeString : Time → String) (mr : RouterClient) : Sampler Unit := do
  -- Router
  let router ← fetch mr .GetRouterStatus
  sampleAll timeString mr router

/-! ## Reading a run -/

/-- Equality of results of requests and of steps is decidable. -/
instance instDecidableEqExcept {ε α : Type} [DecidableEq ε] [DecidableEq α] :
    DecidableEq (Except ε α)
  | .ok a, .ok b => if h : a = b then isTrue (congrArg _ h) else isFalse fun h' => h (Except.ok.inj h')
  | .error a, .error b =>
      if h : a = b then isTrue (congrArg _ h) else isFalse fun h' => h (Except.error.inj h')
  | .ok _, .error _ => isFalse fun h => Except.noConfusion h
  | .error _, .ok _ => isFalse fun h => Except.noConfusion h

/-- The effect of one recorded event on the registry. -/
def Event.apply (ms : MetricSet) : Event → MetricSet
  | .fetch _ => ms
  | .touch family labels => ms.getOrCreate family labels
  | .set family labels v => ms.store family labels v

/-- The registry after the writes among `evs`, in order. -/
def replay (evs : List Event) (ms : MetricSet) : MetricSet := evs.foldl Event.apply ms

/-- The events of a step, run from the state at process start. -/
def trace {α : Type} (m : Sampler α) : List Event := (m SamplerState.init).2.log

/-- How a step ends, run from the state at process start. -/
def outcome {α : Type} (m : Sampler α) : Except Failure α := (m SamplerState.init).1

/-- From every state, the step `m` records the events `evs`, applies their writes and ends
in `out`. -/
def Runs {α : Type} (m : Sampler α) (evs : List Event) (out : Except Failure α) : Prop :=
  ∀ s, m s = (out, ⟨replay evs s.metrics, s.log ++ evs⟩)

/-- No request among `evs` failed. -/
def Clean (mr : RouterClient) (evs : List Event) : Prop :=
  ∀ call, Event.fetch call ∈ evs → mr.errorOf call = none

/-- A failed request is the last event and its error is how the step ends. -/
def Good {α : Type} (mr : RouterClient) (evs : List Event) (out : Except Failure α) : Prop :=
  match out with
  | .error (.fetchError call e) =>
      ∃ pre, evs = pre ++ [Event.fetch call] ∧ mr.errorOf call = some e ∧ Clean mr pre
  | _ => Clean mr evs

/-- The step `m` runs the same from every state, a failed request ends it, and each of its
events satisfies `P`. -/
def Sound {α : Type} (mr : RouterClient) (P : Event → Prop) (m : Sampler α) : Prop :=
  ∃ evs out, Runs m evs out ∧ Good mr evs out ∧ ∀ ev ∈ evs, P ev

/-! ## What the events of a cycle look like -/

/-- The series an event obtains or stores into. -/
def Event.series : Event → Option (Family × List String)
  | .fetch _ => none
  | .touch family labels => some (family, labels)
  | .set family labels _ => some (family, labels)

/-- The value a label tuple gives to a label name of the family. -/
def labelValue (family : Family) (labels : List String) (name : String) : Option String :=
  (family.labelNames.zip labels).lookup name

/-- The label name under which a family records the hostname of the router: `hostname` for
`router_status`, else `router_host` or `router_hostname` if the family declares one. -/
def Family.routerLabel : Family → Option String
  | .routerStatusGauge => some "hostname"
  | family => family.labelNames.find? fun n => n == "router_host" || n == "router_hostname"

/-- The families written in the routes loop. -/
def Family.ofRoute : Family → Bool
  | .routerStatusGauge | .metadataGauge | .metadataConfigGauge | .metadataConfigNodeGauge | .metadataStatusGauge => false
  | _ => true

/-- The families written in the metadata loop. -/
def Family.ofMetadata : Family → Bool
  | .metadataGauge | .metadataConfigGauge | .metadataConfigNodeGauge | .metadataStatusGauge => true
  | _ => false

/-- The names in the route list the client returns (none if the request fails). -/
def RouterClient.routeNames (mr : RouterClient) : List String :=
  match mr.GetAllRoutes with
  | .ok routes => routes.map Routes.Name
  | .error _ => []

/-- The labels of a series are as the loop builds them: the router label carries the hostname
the router returned, and the first label of a series of a route family is a name of the route
list. -/
def SeriesOk (mr : RouterClient) (family : Family) (labels : List String) : Prop :=
  (∀ name router, family.routerLabel = some name → mr.GetRouterStatus = .ok router →
    labelValue family labels name = some router.Hostname) ∧
  (family.ofRoute = true → ∃ n ∈ mr.routeNames, labels.head? = some n)

/-- The value stored is as the loop computes it: the three connection counts are those of the
route status of the route named by the first label, and the health value is one. -/
def ValueOk (mr : RouterClient) : Family → List String → Int → Prop
  | .routeActiveConnectionsGauge, labels, v =>
      ∃ n rs, labels.head? = some n ∧ mr.GetRouteStatus n = .ok rs ∧ v = rs.ActiveConnections
  | .routeTotalConnectionsGauge, labels, v =>
      ∃ n rs, labels.head? = some n ∧ mr.GetRouteStatus n = .ok rs ∧ v = rs.TotalConnections
  | .routeBlockedHostsGauge, labels, v =>
      ∃ n rs, labels.head? = some n ∧ mr.GetRouteStatus n = .ok rs ∧ v = rs.BlockedHosts
  | .routeHealthGauge, _, v => v = 1
  | _, _, _ => True

/-- What holds of every event after the router status request: that request is not repeated,
and every series and stored value is as the loop builds it. -/
def Event.Wellformed (mr : RouterClient) : Event → Prop
  | .fetch call => call ≠ Call.GetRouterStatus
  | .touch family labels => SeriesOk mr family labels
  | .set family labels v => SeriesOk mr family labels ∧ ValueOk mr family labels v

/-- The events a step records when run from the state `s`. -/
def events {α : Type} (m : Sampler α) (s : SamplerState) : List Event :=
  (m s).2.log.drop s.log.length

/-! ## The events of the loop bodies, written out -/

/-- The events of the config-node loop body. -/
def configNodeEvents (router : Router) (m : Metadata) (mc : MetadataConfig)
    (node : MetadataConfigNode) : List Event :=
  [Event.touch .metadataConfigNodeGauge
    [m.Name, router.Hostname, mc.ClusterName, node.Hostname, Itoa node.Port]]

/-- The events of the metadata loop body up to the status request, given the config. -/
def metadataConfigEvents (router : Router) (m : Metadata) (mc : MetadataConfig) : List Event :=
  [Event.touch .metadataGauge [m.Name],
    Event.fetch (.GetMetadataConfig m.Name),
    Event.touch .metadataConfigGauge
      [m.Name, mc.ClusterName, Itoa mc.TimeRefreshInMs, mc.GroupReplicationID]] ++
  mc.Nodes.flatMap (configNodeEvents router m mc) ++
  [Event.fetch (.GetMetadataStatus m.Name)]

/-- The events of the metadata loop body when both of its requests succeed. -/
def metadataEvents (timeString : Time → String) (router : Router) (m : Metadata)
    (mc : MetadataConfig) (ms : MetadataStatus) : List Event :=
  metadataConfigEvents router m mc ++
  [Event.touch .metadataStatusGauge
    [m.Name, Itoa ms.RefreshFailed, timeString ms.TimeLastRefreshSucceeded,
      ms.LastRefreshHostname, Itoa ms.LastRefreshPort]]

/-- The events of the destinations loop body. -/
def destinationEvents (route : Routes) (d : RouteDestinations) : List Event :=
  [Event.touch .routeDestinationsGauge [route.Name, d.Address, Itoa d.Port]]

/-- The label tuple of the six series of a connection. -/
def connectionLabels (router : Router) (route : Routes) (c : RouteConnections) : List String :=
  [route.Name, router.Hostname, c.SourceAddress, c.DestinationAddress]

/-- The events of the connections loop body. -/
def connectionEvents (router : Router) (route : Routes) (c : RouteConnections) : List Event :=
  [Event.touch .routeConnectionsByteFromServerGauge (connectionLabels router route c),
    Event.set .routeConnectionsByteFromServerGauge (connectionLabels router route c) c.BytesFromServer,
    Event.touch .routeConnectionsByteToServerGauge (connectionLabels router route c),
    Event.set .routeConnectionsByteToServerGauge (connectionLabels router route c) c.BytesToServer,
    Event.touch .routeConnectionsTimeStartedGauge (connectionLabels router route c),
    Event.set .routeConnectionsTimeStartedGauge (connectionLabels router route c)
      (float64 (wrapInt64 (c.TimeStarted.Unix * 1000))),
    Event.touch .routeConnectionsTimeConnectedToServerGauge (connectionLabels router route c),
    Event.set .routeConnectionsTimeConnectedToServerGauge (connectionLabels router route c)
      (float64 (wrapInt64 (c.TimeConnectedToServer.Unix * 1000))),
    Event.touch .routeConnectionsTimeLastSentToServerGauge (connectionLabels router route c),
    Event.set .routeConnectionsTimeLastSentToServerGauge (connectionLabels router route c)
      (float64 (wrapInt64 (c.TimeLastSentToServer.Unix * 1000))),
    Event.touch .routeConnectionsTimeLastReceivedFromServerGauge (connectionLabels router route c),
    Event.set .routeConnectionsTimeLastReceivedFromServerGauge (connectionLabels router route c)
      (float64 (wrapInt64 (c.TimeLastReceivedFromServer.Unix * 1000)))]

/-- The events of the routes loop body up to the health request, given the route status. -/
def routeStatusEvents (router : Router) (route : Routes) (rs : RouteStatus) : List Event :=
  [Event.touch .routeGauge [route.Name],
    Event.fetch (.GetRouteStatus route.Name),
    Event.touch .routeActiveConnectionsGauge [route.Name, router.Hostname],
    Event.set .routeActiveConnectionsGauge [route.Name, router.Hostname] rs.ActiveConnections,
    Event.touch .routeTotalConnectionsGauge [route.Name, router.Hostname],
    Event.set .routeTotalConnectionsGauge [route.Name, router.Hostname] rs.TotalConnections,
    Event.touch .routeBlockedHostsGauge [route.Name, router.Hostname],
    Event.set .routeBlockedHostsGauge [route.Name, router.Hostname] rs.BlockedHosts,
    Event.fetch (.GetRouteHealth route.Name)]

/-- The events of the routes loop body for a route that is alive, all requests succeeding. -/
def routeEvents (router : Router) (route : Routes) (rs : RouteStatus)
    (rd : List RouteDestinations) (rc : List RouteConnections) : List Event :=
  routeStatusEvents router route rs ++
  [Event.touch .routeHealthGauge [route.Name, router.Hostname],
    Event.set .routeHealthGauge [route.Name, router.Hostname] 1,
    Event.fetch (.GetRouteDestinations route.Name)] ++
  rd.flatMap (destinationEvents route) ++
  [Event.fetch (.GetRouteConnections route.Name)] ++
  rc.flatMap (connectionEvents router route)

/-- The label tuple of the router status series. -/
def routerStatusLabels (timeString : Time → String) (router : Router) : List String :=
  [Itoa router.ProcessID, router.ProductEdition, timeString router.TimeStarted,
    router.Version, router.Hostname]

/-! ## Example clients -/

/-- A rendering of instants for the examples, standing for `Time.String`. -/
def exampleTimeString (t : Time) : String := Itoa t.sec ++ "." ++ toString t.nsec

/-- The connection of the fixture: 100 bytes from the server, 50 bytes to it. -/
def fixtureConnection : RouteConnections :=
  ⟨100, 50, "192.168.0.7:51234", "10.0.0.1:3306", ⟨1700000000, 0⟩, ⟨1700000001, 0⟩,
    ⟨1700000002, 0⟩, ⟨1700000003, 0⟩⟩

/-- The router of the fixture, with hostname `r1`. -/
def fixtureRouter : Router :=
  ⟨4711, "MySQL Community - GPL", ⟨1699990000, 0⟩, "8.0.35", "r1"⟩

/-- The fixture: router `r1`, metadata `meta1` with two config nodes, route `route1` with
3 active and 10 total connections, no blocked host, alive, one destination, one connection. -/
def fixtureClient : RouterClient where
  GetRouterStatus := .ok fixtureRouter
  GetAllMetadata := .ok [⟨"meta1"⟩]
  GetMetadataConfig := fun name =>
    if name = "meta1" then .ok ⟨"cluster1", 500, "grp1", [⟨"db1", 3306⟩, ⟨"db2", 3306⟩]⟩
    else .error "not found"
  GetMetadataStatus := fun name =>
    if name = "meta1" then .ok ⟨0, ⟨1700000100, 0⟩, "db1", 3306⟩ else .error "not found"
  GetAllRoutes := .ok [⟨"route1"⟩]
  GetRouteStatus := fun name =>
    if name = "route1" then .ok ⟨3, 10, 0⟩ else .error "not found"
  GetRouteHealth := fun name =>
    if name = "route1" then .ok ⟨true⟩ else .error "not found"
  GetRouteDestinations := fun name =>
    if name = "route1" then .ok [⟨"10.0.0.1", 3306⟩] else .error "not found"
  GetRouteConnections := fun name =>
    if name = "route1" then .ok [fixtureConnection] else .error "not found"

/-- The fixture with the route status request failing. -/
def statusDownClient : RouterClient :=
  { fixtureClient with GetRouteStatus := fun _ => .error "connection refused" }

/-- The fixture with the router status request failing. -/
def routerDownClient : RouterClient :=
  { fixtureClient with GetRouterStatus := .error "connection refused" }

/-- The fixture after `route1` was removed from the router. -/
def routeGoneClient : RouterClient :=
  { fixtureClient with GetAllRoutes := .ok [] }

/-- Every request a cycle can send succeeds: the router status, the two lists, and the
requests for each entry of the lists. -/
def FetchesSucceed (mr : RouterClient) (router : Router) (metadata : List Metadata)
    (routes : List Routes) : Prop :=
  mr.GetRouterStatus = .ok router ∧
  mr.GetAllMetadata = .ok metadata ∧
  (∀ m ∈ metadata, (∃ mc, mr.GetMetadataConfig m.Name = .ok mc) ∧
    ∃ ms, mr.GetMetadataStatus m.Name = .ok ms) ∧
  mr.GetAllRoutes = .ok routes ∧
  (∀ r ∈ routes, (∃ rs, mr.GetRouteStatus r.Name = .ok rs) ∧
    (∃ rh, mr.GetRouteHealth r.Name = .ok rh) ∧
    (∃ rd, mr.GetRouteDestinations r.Name = .ok rd) ∧
    ∃ rc, mr.GetRouteConnections r.Name = .ok rc)

/-- The fixture with `route1` reported not alive. -/
def deadRouteClient : RouterClient :=
  { fixtureClient with GetRouteHealth := fun _ => .ok ⟨false⟩ }

/-- A connection whose start instant lies half a second after a whole second. -/
def halfSecondConnection : RouteConnections :=
  ⟨100, 50, "192.168.0.7:51234", "10.0.0.1:3306", ⟨1700000000, 500000000⟩, ⟨1700000001, 0⟩,
    ⟨1700000002, 0⟩, ⟨1700000003, 0⟩⟩

/-- The fixture with the connection `halfSecondConnection`. -/
def halfSecondClient : RouterClient :=
  { fixtureClient with GetRouteConnections := fun _ => .ok [halfSecondConnection] }

/-- A connection started half a second after a whole second, whose last receipt is recorded
at an instant more than two million years after the epoch. -/
def farConnection : RouteConnections :=
  ⟨100, 50, "192.168.0.7:51234", "10.0.0.1:3306", ⟨1700000000, 500000000⟩, ⟨1700000001, 0⟩,
    ⟨1700000002, 0⟩, ⟨72057594037929, 0⟩⟩

/-- The fixture with the connection `farConnection`. -/
def farClient : RouterClient :=
  { fixtureClient with GetRouteConnections := fun _ => .ok [farConnection] }

/-- The millisecond count the loop computes for the instant is at most `2 ^ 53` in magnitude,
the range in which `float64` keeps every integer. -/
def Time.Exact (t : Time) : Prop :=
  -(2 ^ 53 : Int) ≤ 1000 * t.Unix ∧ 1000 * t.Unix ≤ (2 ^ 53 : Int)

/-- The four instants of a connection, each with the family that exports it. -/
def connectionTimes (c : RouteConnections) : List (Family × Time) :=
  [(.routeConnectionsTimeStartedGauge, c.TimeStarted),
    (.routeConnectionsTimeConnectedToServerGauge, c.TimeConnectedToServer),
    (.routeConnectionsTimeLastSentToServerGauge, c.TimeLastSentToServer),
    (.routeConnectionsTimeLastReceivedFromServerGauge, c.TimeLastReceivedFromServer)]

/-! ## The registry as a list of series -/

/-- A series with its value, as a scrape lists it. -/
abbrev Series : Type := (Family × List String) × Int

/-- The registry that holds exactly the listed series (the first entry of a tuple counts). -/
def MetricSet.ofList (series : List Series) : MetricSet := fun f l => series.lookup (f, l)

/-- Change of the value of a series of the list in place, or addition of the series at the
end; `g` gives the new value from the old one. -/
def upsert (k : Family × List String) (g : Option Int → Int) : List Series → List Series
  | [] => [(k, g none)]
  | (k', v) :: rest => if k = k' then (k', g (some v)) :: rest else (k', v) :: upsert k g rest

/-- The effect of one recorded event on the list of series. -/
def Event.applyList (series : List Series) : Event → List Series
  | .fetch _ => series
  | .touch family labels => upsert (family, labels) (fun old => old.getD 0) series
  | .set family labels v => upsert (family, labels) (fun _ => v) series

/-- The series an empty registry holds after the writes among `evs`. -/
def seriesOf (evs : List Event) : List Series := evs.foldl Event.applyList []

/-- The series the cycle over the fixture leaves in an empty registry. -/
def fixtureSeries : List Series :=
  [((.routerStatusGauge, ["4711", "MySQL Community - GPL", "1699990000.0", "8.0.35", "r1"]), 0),
    ((.metadataGauge, ["meta1"]), 0),
    ((.metadataConfigGauge, ["meta1", "cluster1", "500", "grp1"]), 0),
    ((.metadataConfigNodeGauge, ["meta1", "r1", "cluster1", "db1", "3306"]), 0),
    ((.metadataConfigNodeGauge, ["meta1", "r1", "cluster1", "db2", "3306"]), 0),
    ((.metadataStatusGauge, ["meta1", "0", "1700000100.0", "db1", "3306"]), 0),
    ((.routeGauge, ["route1"]), 0),
    ((.routeActiveConnectionsGauge, ["route1", "r1"]), 3),
    ((.routeTotalConnectionsGauge, ["route1", "r1"]), 10),
    ((.routeBlockedHostsGauge, ["route1", "r1"]), 0),
    ((.routeHealthGauge, ["route1", "r1"]), 1),
    ((.routeDestinationsGauge, ["route1", "10.0.0.1", "3306"]), 0),
    ((.routeConnectionsByteFromServerGauge,
      ["route1", "r1", "192.168.0.7:51234", "10.0.0.1:3306"]), 100),
    ((.routeConnectionsByteToServerGauge,
      ["route1", "r1", "192.168.0.7:51234", "10.0.0.1:3306"]), 50),
    ((.routeConnectionsTimeStartedGauge,
      ["route1", "r1", "192.168.0.7:51234", "10.0.0.1:3306"]), 1700000000000),
    ((.routeConnectionsTimeConnectedToServerGauge,
      ["route1", "r1", "192.168.0.7:51234", "10.0.0.1:3306"]), 1700000001000),
    ((.routeConnectionsTimeLastSentToServerGauge,
      ["route1", "r1", "192.168.0.7:51234", "10.0.0.1:3306"]), 1700000002000),
    ((.routeConnectionsTimeLastReceivedFromServerGauge,
      ["route1", "r1", "192.168.0.7:51234", "10.0.0.1:3306"]), 1700000003000)]

/-! ## A failure inside the metadata loop -/

/-- The request of the metadata loop body that fails for the entry `m`, with its error. -/
def metadataAbort (mr : RouterClient) (m : Metadata) : Option (Call × String) :=
  match mr.GetMetadataConfig m.Name with
  | .error e => some (.GetMetadataConfig m.Name, e)
  | .ok _ =>
      match mr.GetMetadataStatus m.Name with
      | .error e => some (.GetMetadataStatus m.Name, e)
      | .ok _ => none

/-- The events of the metadata loop body for an entry one of whose requests fails. -/
def metadataAbortEvents (mr : RouterClient) (router : Router) (m : Metadata) : List Event :=
  match mr.GetMetadataConfig m.Name with
  | .error _ => [Event.touch .metadataGauge [m.Name], Event.fetch (.GetMetadataConfig m.Name)]
  | .ok mc => metadataConfigEvents router m mc

/-- The fixture with a second metadata entry `meta2` whose config request fails. -/
def metadataDownClient : RouterClient :=
  { fixtureClient with GetAllMetadata := .ok [⟨"meta1"⟩, ⟨"meta2"⟩] }

theorem replay_nil (ms : MetricSet) : replay [] ms = ms := rfl

theorem replay_append (e1 e2 : List Event) (ms : MetricSet) :
    replay (e1 ++ e2) ms = replay e2 (replay e1 ms) := by
  simp [replay, List.foldl_append]

theorem bind_eq {α β : Type} (m : Sampler α) (f : α → Sampler β) :
    (m >>= f) = Sampler.andThen m f := rfl

theorem pure_eq {α : Type} (a : α) : (pure a : Sampler α) = Sampler.ret a := rfl

theorem Runs.trace_eq {α : Type} {m : Sampler α} {evs out} (h : Runs m evs out) :
    trace m = evs := by
  rw [trace, h]; rfl

theorem Runs.outcome_eq {α : Type} {m : Sampler α} {evs out} (h : Runs m evs out) :
    outcome m = out := by
  rw [outcome, h]

theorem runs_pure {α : Type} (a : α) : Runs (pure a : Sampler α) [] (.ok a) := by
  intro s; simp [pure_eq, Sampler.ret, replay_nil]

theorem runs_bind_ok {α β : Type} {m : Sampler α} {f : α → Sampler β} {e1 e2 a out}
    (h1 : Runs m e1 (.ok a)) (h2 : Runs (f a) e2 out) : Runs (m >>= f) (e1 ++ e2) out := by
  intro s
  simp [bind_eq, Sampler.andThen, h1 s, h2 _, replay_append, List.append_assoc]

theorem runs_bind_error {α β : Type} {m : Sampler α} {f : α → Sampler β} {e1 x}
    (h1 : Runs m e1 (.error x)) : Runs (m >>= f) e1 (.error x) := by
  intro s
  simp [bind_eq, Sampler.andThen, h1 s]

theorem runs_fetch (mr : RouterClient) (call : Call) :
    Runs (fetch mr call) [Event.fetch call]
      (match mr.invoke call with
        | .ok a => .ok a
        | .error e => .error (.fetchError call e)) := by
  intro s
  unfold fetch
  cases mr.invoke call <;> simp [replay, Event.apply]

theorem runs_with_ok {family : Family} {labels : List String}
    (h : labels.length = family.labelNames.length) :
    Runs (WithLabelValues family labels) [Event.touch family labels] (.ok ⟨family, labels⟩) := by
  intro s
  simp [WithLabelValues, h, replay, Event.apply]

theorem runs_with_error {family : Family} {labels : List String}
    (h : labels.length ≠ family.labelNames.length) :
    Runs (WithLabelValues family labels) [] (.error (.invalidLabelCardinality family labels)) := by
  intro s
  simp [WithLabelValues, h, replay]

theorem runs_set (g : Gauge) (v : Int) :
    Runs (g.Set v) [Event.set g.family g.labels v] (.ok ()) := by
  intro s
  simp [Gauge.Set, replay, Event.apply]

theorem runs_unique {α : Type} {m : Sampler α} {e1 e2 o1 o2} (h1 : Runs m e1 o1)
    (h2 : Runs m e2 o2) : e1 = e2 ∧ o1 = o2 :=
  ⟨h1.trace_eq.symm.trans h2.trace_eq, h1.outcome_eq.symm.trans h2.outcome_eq⟩

theorem forEach_nil {α : Type} (body : α → Sampler Unit) : forEach [] body = pure () := rfl

theorem forEach_cons {α : Type} (x : α) (xs : List α) (body : α → Sampler Unit) :
    forEach (x :: xs) body = (body x >>= fun _ => forEach xs body) := rfl

/-- A loop whose bodies all end normally records their events in order. -/
theorem runs_forEach_ok {α : Type} {body : α → Sampler Unit} {E : α → List Event} :
    ∀ xs : List α, (∀ x ∈ xs, Runs (body x) (E x) (.ok ())) →
      Runs (forEach xs body) (xs.flatMap E) (.ok ())
  | [], _ => by simpa [forEach_nil] using runs_pure ()
  | x :: xs, h => by
      rw [forEach_cons, List.flatMap_cons]
      exact runs_bind_ok (h x (List.mem_cons_self _ _))
        (runs_forEach_ok xs fun y hy => h y (List.mem_cons_of_mem _ hy))

/-- A loop stops at the first body that panics. -/
theorem runs_forEach_error {α : Type} {body : α → Sampler Unit} {E : α → List Event}
    {x : α} {ex : List Event} {f : Failure} (post : List α) (hx : Runs (body x) ex (.error f)) :
    ∀ pre : List α, (∀ y ∈ pre, Runs (body y) (E y) (.ok ())) →
      Runs (forEach (pre ++ x :: post) body) (pre.flatMap E ++ ex) (.error f)
  | [], _ => by
      simpa [forEach_cons] using runs_bind_error hx
  | y :: pre, h => by
      rw [List.cons_append, forEach_cons, List.flatMap_cons, List.append_assoc]
      exact runs_bind_ok (h y (List.mem_cons_self _ _))
        (runs_forEach_error post hx pre fun z hz => h z (List.mem_cons_of_mem _ hz))

theorem clean_nil (mr : RouterClient) : Clean mr [] := by
  intro call h; simp at h

theorem clean_append {mr : RouterClient} {e1 e2 : List Event} (h1 : Clean mr e1)
    (h2 : Clean mr e2) : Clean mr (e1 ++ e2) := by
  intro call h
  rcases List.mem_append.1 h with h | h
  · exact h1 call h
  · exact h2 call h

theorem Sound.runs {α : Type} {mr P} {m : Sampler α} (h : Sound mr P m) :
    Runs m (trace m) (outcome m) := by
  obtain ⟨evs, out, h, -, -⟩ := h
  rw [h.trace_eq, h.outcome_eq]; exact h

theorem sound_pure {α : Type} (mr : RouterClient) (P : Event → Prop) (a : α) :
    Sound mr P (pure a : Sampler α) :=
  ⟨[], .ok a, runs_pure a, clean_nil mr, by simp⟩

theorem sound_bind {α β : Type} {mr : RouterClient} {P : Event → Prop} {m : Sampler α}
    {f : α → Sampler β} (hm : Sound mr P m) (hf : ∀ a, outcome m = .ok a → Sound mr P (f a)) :
    Sound mr P (m >>= f) := by
  obtain ⟨e1, o1, h1, g1, p1⟩ := hm
  cases o1 with
  | error x =>
      refine ⟨e1, .error x, runs_bind_error h1, ?_, p1⟩
      cases x <;> exact g1
  | ok a =>
      obtain ⟨e2, o2, h2, g2, p2⟩ := hf a h1.outcome_eq
      refine ⟨e1 ++ e2, o2, runs_bind_ok h1 h2, ?_, ?_⟩
      · have c1 : Clean mr e1 := g1
        cases o2 with
        | ok b => exact clean_append c1 g2
        | error x =>
            cases x with
            | fetchError call e =>
                obtain ⟨pre, rfl, he, hc⟩ := g2
                exact ⟨e1 ++ pre, by simp, he, clean_append c1 hc⟩
            | invalidLabelCardinality fam lvs => exact clean_append c1 g2
      · intro ev hev
        rcases List.mem_append.1 hev with h | h
        · exact p1 ev h
        · exact p2 ev h

theorem outcome_fetch (mr : RouterClient) (call : Call) :
    outcome (fetch mr call) = (match mr.invoke call with
        | .ok a => .ok a
        | .error e => .error (.fetchError call e)) :=
  (runs_fetch mr call).outcome_eq

theorem outcome_fetch_ok {mr : RouterClient} {call : Call} {a : call.Response}
    (h : outcome (fetch mr call) = .ok a) : mr.invoke call = .ok a := by
  rw [outcome_fetch] at h
  cases hc : mr.invoke call with
  | ok b => rw [hc] at h; simpa using h
  | error e => rw [hc] at h; simp at h

theorem sound_fetch {mr : RouterClient} {P : Event → Prop} (call : Call)
    (hP : P (Event.fetch call)) : Sound mr P (fetch mr call) := by
  refine ⟨_, _, runs_fetch mr call, ?_, by simpa using hP⟩
  cases hc : mr.invoke call with
  | ok a =>
      intro c hmem
      simp at hmem
      subst hmem
      simp [RouterClient.errorOf, hc]
  | error e =>
      exact ⟨[], by simp, by simp [RouterClient.errorOf, hc], clean_nil mr⟩

theorem sound_with {mr : RouterClient} {P : Event → Prop} (family : Family)
    (labels : List String)
    (hP : labels.length = family.labelNames.length → P (Event.touch family labels)) :
    Sound mr P (WithLabelValues family labels) := by
  by_cases h : labels.length = family.labelNames.length
  · refine ⟨_, _, runs_with_ok h, ?_, by simpa using hP h⟩
    intro c hmem; simp at hmem
  · exact ⟨_, _, runs_with_error h, clean_nil mr, by simp⟩

theorem outcome_with_ok {family : Family} {labels : List String} {g : Gauge}
    (h : outcome (WithLabelValues family labels) = .ok g) :
    g = ⟨family, labels⟩ ∧ labels.length = family.labelNames.length := by
  by_cases hl : labels.length = family.labelNames.length
  · rw [(runs_with_ok hl).outcome_eq] at h
    exact ⟨by simpa using h.symm, hl⟩
  · rw [(runs_with_error hl).outcome_eq] at h
    simp at h

theorem sound_set {mr : RouterClient} {P : Event → Prop} (g : Gauge) (v : Int)
    (hP : P (Event.set g.family g.labels v)) : Sound mr P (g.Set v) := by
  refine ⟨_, _, runs_set g v, ?_, by simpa using hP⟩
  intro c hmem; simp at hmem

theorem sound_forEach {α : Type} {mr : RouterClient} {P : Event → Prop}
    {body : α → Sampler Unit} :
    ∀ xs : List α, (∀ x ∈ xs, Sound mr P (body x)) → Sound mr P (forEach xs body)
  | [], _ => by simpa [forEach_nil] using sound_pure mr P ()
  | x :: xs, h => by
      rw [forEach_cons]
      exact sound_bind (h x (List.mem_cons_self _ _)) fun _ _ =>
        sound_forEach xs fun y hy => h y (List.mem_cons_of_mem _ hy)

/-! ### Replaying events: one series at a time -/

theorem replay_cons (ev : Event) (evs : List Event) (ms : MetricSet) :
    replay (ev :: evs) ms = replay evs (ev.apply ms) := rfl

theorem apply_congr (ev : Event) {ms ms' : MetricSet} {f : Family} {l : List String}
    (h : ms f l = ms' f l) : ev.apply ms f l = ev.apply ms' f l := by
  cases ev <;> simp [Event.apply, MetricSet.getOrCreate, MetricSet.store, h]

/-- The value of a series after a replay depends on its value before only. -/
theorem replay_congr (evs : List Event) {f : Family} {l : List String} :
    ∀ {ms ms' : MetricSet}, ms f l = ms' f l → replay evs ms f l = replay evs ms' f l := by
  induction evs with
  | nil => intro ms ms' h; exact h
  | cons ev evs ih => intro ms ms' h; exact ih (apply_congr ev h)

theorem apply_of_not_set (ev : Event) {ms : MetricSet} {f : Family} {l : List String} {x : Int}
    (hev : ∀ v, ev ≠ Event.set f l v) (h : ms f l = some x) : ev.apply ms f l = some x := by
  cases ev with
  | fetch c => exact h
  | touch f' l' =>
      by_cases hk : f = f' ∧ l = l'
      · obtain ⟨rfl, rfl⟩ := hk
        simp [Event.apply, MetricSet.getOrCreate, h]
      · simp [Event.apply, MetricSet.getOrCreate, hk, h]
  | set f' l' v =>
      have hk : ¬ (f = f' ∧ l = l') := by
        rintro ⟨rfl, rfl⟩; exact hev v rfl
      simp [Event.apply, MetricSet.store, hk, h]

/-- A series no event of `evs` stores into keeps the value it has. -/
theorem replay_keep (evs : List Event) {f : Family} {l : List String} {x : Int} :
    ∀ {ms : MetricSet}, (∀ v, Event.set f l v ∉ evs) → ms f l = some x →
      replay evs ms f l = some x := by
  induction evs with
  | nil => intro ms _ h; exact h
  | cons ev evs ih =>
      intro ms hno h
      refine ih (fun v hv => hno v (List.mem_cons_of_mem _ hv)) (apply_of_not_set ev ?_ h)
      intro v hv; exact hno v (hv ▸ List.mem_cons_self _ _)

/-- A series no event of `evs` stores into, absent before, is absent or zero after. -/
theorem replay_none (evs : List Event) {f : Family} {l : List String} :
    ∀ {ms : MetricSet}, (∀ v, Event.set f l v ∉ evs) → ms f l = none →
      replay evs ms f l = none ∨ replay evs ms f l = some 0 := by
  induction evs with
  | nil => intro ms _ h; exact Or.inl h
  | cons ev evs ih =>
      intro ms hno h
      have hno' : ∀ v, Event.set f l v ∉ evs := fun v hv => hno v (List.mem_cons_of_mem _ hv)
      have hev : ∀ v, ev ≠ Event.set f l v := fun v hv => hno v (hv ▸ List.mem_cons_self _ _)
      rw [replay_cons]
      cases ev with
      | fetch c => exact ih hno' h
      | touch f' l' =>
          by_cases hk : f = f' ∧ l = l'
          · obtain ⟨rfl, rfl⟩ := hk
            exact Or.inr (replay_keep evs hno'
              (by simp [Event.apply, MetricSet.getOrCreate, h]))
          · exact ih hno' (by simp [Event.apply, MetricSet.getOrCreate, hk, h])
      | set f' l' v =>
          have hk : ¬ (f = f' ∧ l = l') := by
            rintro ⟨rfl, rfl⟩; exact hev v rfl
          exact ih hno' (by simp [Event.apply, MetricSet.store, hk, h])

/-- Once `evs` stores into a series, the value before the replay no longer matters. -/
theorem replay_const (evs : List Event) {f : Family} {l : List String} {v : Int} :
    ∀ {ms ms' : MetricSet}, Event.set f l v ∈ evs → replay evs ms f l = replay evs ms' f l := by
  induction evs with
  | nil => intro ms ms' h; simp at h
  | cons ev evs ih =>
      intro ms ms' h
      rcases List.mem_cons.1 h with h | h
      · subst h
        exact replay_congr evs (by simp [Event.apply, MetricSet.store])
      · exact ih h

/-- Replaying never removes a series. -/
theorem replay_present (evs : List Event) {f : Family} {l : List String} :
    ∀ {ms : MetricSet}, ms f l ≠ none → replay evs ms f l ≠ none := by
  induction evs with
  | nil => intro ms h; exact h
  | cons ev evs ih =>
      intro ms h
      refine ih ?_
      cases ev with
      | fetch c => exact h
      | touch f' l' =>
          by_cases hk : f = f' ∧ l = l'
          · obtain ⟨rfl, rfl⟩ := hk
            cases hx : ms f l <;> simp [Event.apply, MetricSet.getOrCreate, hx]
          · simpa [Event.apply, MetricSet.getOrCreate, hk] using h
      | set f' l' v =>
          by_cases hk : f = f' ∧ l = l' <;> simp [Event.apply, MetricSet.store, hk, h]

/-- A series no event of `evs` obtains or stores into is left as it is. -/
theorem replay_frame (evs : List Event) {f : Family} {l : List String} :
    ∀ {ms : MetricSet}, Event.touch f l ∉ evs → (∀ v, Event.set f l v ∉ evs) →
      replay evs ms f l = ms f l := by
  induction evs with
  | nil => intro ms _ _; rfl
  | cons ev evs ih =>
      intro ms ht hs
      rw [replay_cons, ih (fun h => ht (List.mem_cons_of_mem _ h))
        (fun v h => hs v (List.mem_cons_of_mem _ h))]
      cases ev with
      | fetch c => rfl
      | touch f' l' =>
          have hk : ¬ (f = f' ∧ l = l') := by
            rintro ⟨rfl, rfl⟩; exact ht (List.mem_cons_self _ _)
          simp [Event.apply, MetricSet.getOrCreate, hk]
      | set f' l' v =>
          have hk : ¬ (f = f' ∧ l = l') := by
            rintro ⟨rfl, rfl⟩; exact hs v (List.mem_cons_self _ _)
          simp [Event.apply, MetricSet.store, hk]

/-- A series into which `evs` stores, and only ever the value `v`, holds `v` after. -/
theorem replay_value (evs : List Event) {f : Family} {l : List String} {v : Int} :
    ∀ {ms : MetricSet}, Event.set f l v ∈ evs → (∀ w, Event.set f l w ∈ evs → w = v) →
      replay evs ms f l = some v := by
  induction evs with
  | nil => intro ms h; simp at h
  | cons ev evs ih =>
      intro ms h hall
      have hall' : ∀ w, Event.set f l w ∈ evs → w = v :=
        fun w hw => hall w (List.mem_cons_of_mem _ hw)
      by_cases hin : Event.set f l v ∈ evs
      · exact ih hin hall'
      · rcases List.mem_cons.1 h with h | h
        · subst h
          refine replay_keep evs (fun w hw => hin ?_) (by simp [Event.apply, MetricSet.store])
          rw [← hall' w hw]; exact hw
        · exact absurd h hin

/-- Replaying the same events a second time changes nothing. -/
theorem replay_idem (evs : List Event) (ms : MetricSet) :
    replay evs (replay evs ms) = replay evs ms := by
  funext f l
  by_cases hset : ∃ v, Event.set f l v ∈ evs
  · obtain ⟨v, hv⟩ := hset
    exact replay_const evs hv
  · have hno : ∀ v, Event.set f l v ∉ evs := fun v hv => hset ⟨v, hv⟩
    cases hx : ms f l with
    | some x =>
        rw [replay_keep evs hno hx]
        exact replay_keep evs hno (replay_keep evs hno hx)
    | none =>
        rcases replay_none evs hno hx with h | h
        · rw [h]
          rcases replay_none evs hno h with h' | h'
          · exact h'
          · rw [replay_congr evs (h.trans hx.symm)] at h'
            rw [h] at h'; exact absurd h' (by simp)
        · rw [h]; exact replay_keep evs hno h

theorem sound_sampleConfigNode {mr : RouterClient} {router : Router}
    (hr : mr.GetRouterStatus = .ok router) (m : Metadata) (mc : MetadataConfig)
    (node : MetadataConfigNode) :
    Sound mr (Event.Wellformed mr) (sampleConfigNode router m mc node) := by
  unfold sampleConfigNode
  refine sound_bind (sound_with _ _ fun _ => ?_) fun _ _ => sound_pure _ _ _
  simp [Event.Wellformed, SeriesOk, ValueOk, Family.routerLabel, Family.labelNames, labelValue,
    Family.ofRoute, hr, List.lookup]

theorem sound_sampleMetadata (timeString : Time → String) {mr : RouterClient} {router : Router}
    (hr : mr.GetRouterStatus = .ok router) (m : Metadata) :
    Sound mr (Event.Wellformed mr) (sampleMetadata timeString mr router m) := by
  unfold sampleMetadata
  refine sound_bind (sound_with _ _ fun _ => ?_) fun _ _ =>
    sound_bind (sound_fetch _ ?_) fun mc _ =>
    sound_bind (sound_with _ _ fun _ => ?_) fun _ _ =>
    sound_bind (sound_forEach _ fun node _ => sound_sampleConfigNode hr m mc node) fun _ _ =>
    sound_bind (sound_fetch _ ?_) fun ms _ =>
    sound_bind (sound_with _ _ fun _ => ?_) fun _ _ => sound_pure _ _ _
  all_goals
    simp [Event.Wellformed, SeriesOk, ValueOk, Family.routerLabel, Family.labelNames, labelValue,
      Family.ofRoute, hr, List.lookup]

/-- The rule for `WithLabelValues(...).Set(v)` followed by the rest of a block. -/
theorem sound_store {β : Type} {mr : RouterClient} {P : Event → Prop} (family : Family)
    (labels : List String) (v : Int) {k : Unit → Sampler β}
    (hT : labels.length = family.labelNames.length → P (Event.touch family labels))
    (hS : labels.length = family.labelNames.length → P (Event.set family labels v))
    (hk : labels.length = family.labelNames.length → Sound mr P (k ())) :
    Sound mr P (WithLabelValues family labels >>= fun g => g.Set v >>= k) := by
  refine sound_bind (sound_with _ _ hT) fun g hg => ?_
  obtain ⟨rfl, hl⟩ := outcome_with_ok hg
  exact sound_bind (sound_set _ _ (hS hl)) fun _ _ => hk hl

/-- The rule for `WithLabelValues(...).Set(v)` at the end of a block. -/
theorem sound_store_last {mr : RouterClient} {P : Event → Prop} (family : Family)
    (labels : List String) (v : Int)
    (hT : labels.length = family.labelNames.length → P (Event.touch family labels))
    (hS : labels.length = family.labelNames.length → P (Event.set family labels v)) :
    Sound mr P (WithLabelValues family labels >>= fun g => g.Set v) := by
  refine sound_bind (sound_with _ _ hT) fun g hg => ?_
  obtain ⟨rfl, hl⟩ := outcome_with_ok hg
  exact sound_set _ _ (hS hl)

theorem mem_routeNames {mr : RouterClient} {routes : List Routes} {route : Routes}
    (h : mr.GetAllRoutes = .ok routes) (hmem : route ∈ routes) :
    route.Name ∈ mr.routeNames := by
  simp only [RouterClient.routeNames, h]
  exact List.mem_map_of_mem _ hmem

theorem sound_sampleDestination {mr : RouterClient} {route : Routes}
    (hn : route.Name ∈ mr.routeNames) (d : RouteDestinations) :
    Sound mr (Event.Wellformed mr) (sampleDestination route d) := by
  unfold sampleDestination
  refine sound_bind (sound_with _ _ fun _ => ?_) fun _ _ => sound_pure _ _ _
  simp [Event.Wellformed, SeriesOk, ValueOk, Family.routerLabel, Family.labelNames, labelValue,
    Family.ofRoute, hn, List.lookup]

theorem sound_sampleConnection {mr : RouterClient} {router : Router} {route : Routes}
    (hr : mr.GetRouterStatus = .ok router) (hn : route.Name ∈ mr.routeNames)
    (c : RouteConnections) :
    Sound mr (Event.Wellformed mr) (sampleConnection router route c) := by
  unfold sampleConnection
  refine sound_store _ _ _ (fun _ => ?_) (fun _ => ?_) fun _ =>
    sound_store _ _ _ (fun _ => ?_) (fun _ => ?_) fun _ =>
    sound_store _ _ _ (fun _ => ?_) (fun _ => ?_) fun _ =>
    sound_store _ _ _ (fun _ => ?_) (fun _ => ?_) fun _ =>
    sound_store _ _ _ (fun _ => ?_) (fun _ => ?_) fun _ =>
    sound_store_last _ _ _ (fun _ => ?_) (fun _ => ?_)
  all_goals
    simp [Event.Wellformed, SeriesOk, ValueOk, Family.routerLabel, Family.labelNames, labelValue,
      Family.ofRoute, hr, hn, List.lookup]

theorem sound_sampleRoute {mr : RouterClient} {router : Router} {route : Routes}
    (hr : mr.GetRouterStatus = .ok router) (hn : route.Name ∈ mr.routeNames) :
    Sound mr (Event.Wellformed mr) (sampleRoute mr router route) := by
  unfold sampleRoute
  refine sound_bind (sound_with _ _ fun _ => ?_) fun _ _ =>
    sound_bind (sound_fetch _ ?_) fun rs hrs =>
    sound_store _ _ _ (fun _ => ?_) (fun _ => ?_) fun _ =>
    sound_store _ _ _ (fun _ => ?_) (fun _ => ?_) fun _ =>
    sound_store _ _ _ (fun _ => ?_) (fun _ => ?_) fun _ =>
    sound_bind (sound_fetch _ ?_) fun rh _ => ?_
  rotate_right
  · have hrs' : mr.GetRouteStatus route.Name = .ok rs := outcome_fetch_ok hrs
    have hrest : Sound mr (Event.Wellformed mr)
        (fetch mr (.GetRouteDestinations route.Name) >>= fun rd =>
          forEach rd (sampleDestination route) >>= fun _ =>
          fetch mr (.GetRouteConnections route.Name) >>= fun rc =>
          forEach rc (sampleConnection router route)) := by
      refine sound_bind (sound_fetch _ ?_) fun rd _ =>
        sound_bind (sound_forEach _ fun d _ => sound_sampleDestination hn d) fun _ _ =>
        sound_bind (sound_fetch _ ?_) fun rc _ =>
        sound_forEach _ fun c _ => sound_sampleConnection hr hn c
      all_goals simp [Event.Wellformed]
    cases hal : rh.IsAlive
    · simp only [hal, Bool.false_eq_true, if_false]
      refine sound_store _ _ _ (fun h => ?_) (fun h => ?_) fun h => ?_ <;>
        simp [Family.labelNames] at h
    · simp only [hal, if_true]
      refine sound_store _ _ _ (fun _ => ?_) (fun _ => ?_) fun _ => hrest
      all_goals
        simp [Event.Wellformed, SeriesOk, ValueOk, Family.routerLabel, Family.labelNames,
          labelValue, Family.ofRoute, hr, hn, List.lookup]
  all_goals
    first
    | have hrs' : mr.GetRouteStatus route.Name = .ok rs := outcome_fetch_ok hrs
      simp [Event.Wellformed, SeriesOk, ValueOk, Family.routerLabel, Family.labelNames,
        labelValue, Family.ofRoute, hr, hn, hrs', List.lookup]
    | simp [Event.Wellformed, SeriesOk, ValueOk, Family.routerLabel, Family.labelNames,
        labelValue, Family.ofRoute, hr, hn, List.lookup]

theorem sound_sampleAll (timeString : Time → String) {mr : RouterClient} {router : Router}
    (hr : mr.GetRouterStatus = .ok router) :
    Sound mr (Event.Wellformed mr) (sampleAll timeString mr router) := by
  unfold sampleAll
  refine sound_bind (sound_with _ _ fun _ => ?_) fun _ _ =>
    sound_bind (sound_fetch _ ?_) fun metadata _ =>
    sound_bind (sound_forEach _ fun m _ => sound_sampleMetadata timeString hr m) fun _ _ =>
    sound_bind (sound_fetch _ ?_) fun routes hroutes =>
    sound_forEach _ fun route hmem =>
      sound_sampleRoute hr (mem_routeNames (outcome_fetch_ok hroutes) hmem)
  all_goals
    simp [Event.Wellformed, SeriesOk, ValueOk, Family.routerLabel, Family.labelNames, labelValue,
      Family.ofRoute, hr, List.lookup]

theorem events_of_runs {α : Type} {m : Sampler α} {evs out} (h : Runs m evs out)
    (s : SamplerState) : events m s = evs := by
  simp [events, h s]

theorem metrics_of_runs {α : Type} {m : Sampler α} {evs out} (h : Runs m evs out)
    (s : SamplerState) : (m s).2.metrics = replay evs s.metrics := by
  simp [h s]

theorem outcome_of_runs {α : Type} {m : Sampler α} {evs out} (h : Runs m evs out)
    (s : SamplerState) : (m s).1 = out := by
  simp [h s]

/-! ### The loop bodies, run -/

theorem runs_sampleConfigNode (router : Router) (m : Metadata) (mc : MetadataConfig)
    (node : MetadataConfigNode) :
    Runs (sampleConfigNode router m mc node) (configNodeEvents router m mc node) (.ok ()) := by
  unfold sampleConfigNode configNodeEvents
  exact runs_bind_ok (runs_with_ok (by simp [Family.labelNames])) (runs_pure _)

theorem runs_sampleDestination (route : Routes) (d : RouteDestinations) :
    Runs (sampleDestination route d) (destinationEvents route d) (.ok ()) := by
  unfold sampleDestination destinationEvents
  exact runs_bind_ok (runs_with_ok (by simp [Family.labelNames])) (runs_pure _)

/-- `WithLabelValues(...).Set(v)` on a tuple of the declared length, then the rest. -/
theorem runs_store {β : Type} {family : Family} {labels : List String} (v : Int)
    {k : Unit → Sampler β} {evs : List Event} {out : Except Failure β}
    (hl : labels.length = family.labelNames.length) (hk : Runs (k ()) evs out) :
    Runs (WithLabelValues family labels >>= fun g => g.Set v >>= k)
      (Event.touch family labels :: Event.set family labels v :: evs) out :=
  runs_bind_ok (runs_with_ok hl) (runs_bind_ok (runs_set _ v) hk)

theorem runs_store_last {family : Family} {labels : List String} (v : Int)
    (hl : labels.length = family.labelNames.length) :
    Runs (WithLabelValues family labels >>= fun g => g.Set v)
      [Event.touch family labels, Event.set family labels v] (.ok ()) :=
  runs_bind_ok (runs_with_ok hl) (runs_set _ v)

theorem runs_sampleConnection (router : Router) (route : Routes) (c : RouteConnections) :
    Runs (sampleConnection router route c) (connectionEvents router route c) (.ok ()) := by
  unfold sampleConnection connectionEvents connectionLabels
  exact runs_store _ (by simp [Family.labelNames]) <|
    runs_store _ (by simp [Family.labelNames]) <|
    runs_store _ (by simp [Family.labelNames]) <|
    runs_store _ (by simp [Family.labelNames]) <|
    runs_store _ (by simp [Family.labelNames]) <|
    runs_store_last _ (by simp [Family.labelNames])

theorem runs_fetch_ok {mr : RouterClient} (call : Call) {a : call.Response}
    (h : mr.invoke call = .ok a) : Runs (fetch mr call) [Event.fetch call] (.ok a) := by
  have := runs_fetch mr call
  rwa [h] at this

theorem runs_fetch_error {mr : RouterClient} (call : Call) {e : String}
    (h : mr.invoke call = .error e) :
    Runs (fetch mr call) [Event.fetch call] (.error (.fetchError call e)) := by
  have := runs_fetch mr call
  rwa [h] at this

theorem Runs.congr {α : Type} {m : Sampler α} {evs evs' : List Event} {out : Except Failure α}
    (h : Runs m evs out) (he : evs = evs') : Runs m evs' out := he ▸ h

/-- The metadata loop body when both requests succeed. -/
theorem runs_sampleMetadata (timeString : Time → String) {mr : RouterClient} (router : Router)
    {m : Metadata} {mc : MetadataConfig} {ms : MetadataStatus}
    (hmc : mr.GetMetadataConfig m.Name = .ok mc) (hms : mr.GetMetadataStatus m.Name = .ok ms) :
    Runs (sampleMetadata timeString mr router m) (metadataEvents timeString router m mc ms)
      (.ok ()) := by
  unfold sampleMetadata
  refine Runs.congr (runs_bind_ok (runs_with_ok (by simp [Family.labelNames])) <|
    runs_bind_ok (runs_fetch_ok (.GetMetadataConfig m.Name) hmc) <|
    runs_bind_ok (runs_with_ok (by simp [Family.labelNames])) <|
    runs_bind_ok (runs_forEach_ok mc.Nodes fun node _ => runs_sampleConfigNode router m mc node) <|
    runs_bind_ok (runs_fetch_ok (.GetMetadataStatus m.Name) hms) <|
    runs_bind_ok (runs_with_ok (by simp [Family.labelNames])) (runs_pure ())) ?_
  simp [metadataEvents, metadataConfigEvents]

/-- The metadata loop body when the config request fails. -/
theorem runs_sampleMetadata_config_error (timeString : Time → String) {mr : RouterClient}
    (router : Router) {m : Metadata} {e : String}
    (hmc : mr.GetMetadataConfig m.Name = .error e) :
    Runs (sampleMetadata timeString mr router m)
      [Event.touch .metadataGauge [m.Name], Event.fetch (.GetMetadataConfig m.Name)]
      (.error (.fetchError (.GetMetadataConfig m.Name) e)) := by
  unfold sampleMetadata
  exact Runs.congr (runs_bind_ok (runs_with_ok (by simp [Family.labelNames])) <|
    runs_bind_error (runs_fetch_error (.GetMetadataConfig m.Name) hmc)) (by simp)

/-- The metadata loop body when the status request fails. -/
theorem runs_sampleMetadata_status_error (timeString : Time → String) {mr : RouterClient}
    (router : Router) {m : Metadata} {mc : MetadataConfig} {e : String}
    (hmc : mr.GetMetadataConfig m.Name = .ok mc) (hms : mr.GetMetadataStatus m.Name = .error e) :
    Runs (sampleMetadata timeString mr router m) (metadataConfigEvents router m mc)
      (.error (.fetchError (.GetMetadataStatus m.Name) e)) := by
  unfold sampleMetadata
  refine Runs.congr (runs_bind_ok (runs_with_ok (by simp [Family.labelNames])) <|
    runs_bind_ok (runs_fetch_ok (.GetMetadataConfig m.Name) hmc) <|
    runs_bind_ok (runs_with_ok (by simp [Family.labelNames])) <|
    runs_bind_ok (runs_forEach_ok mc.Nodes fun node _ => runs_sampleConfigNode router m mc node) <|
    runs_bind_error (runs_fetch_error (.GetMetadataStatus m.Name) hms)) ?_
  simp [metadataConfigEvents]

/-- The routes loop body up to the health request. -/
theorem runs_sampleRoute_alive {mr : RouterClient} (router : Router) {route : Routes}
    {rs : RouteStatus} {rd : List RouteDestinations} {rc : List RouteConnections}
    (hrs : mr.GetRouteStatus route.Name = .ok rs)
    (hrh : mr.GetRouteHealth route.Name = .ok ⟨true⟩)
    (hrd : mr.GetRouteDestinations route.Name = .ok rd)
    (hrc : mr.GetRouteConnections route.Name = .ok rc) :
    Runs (sampleRoute mr router route) (routeEvents router route rs rd rc) (.ok ()) := by
  unfold sampleRoute
  refine Runs.congr (runs_bind_ok (runs_with_ok (by simp [Family.labelNames])) <|
    runs_bind_ok (runs_fetch_ok (.GetRouteStatus route.Name) hrs) <|
    runs_store _ (by simp [Family.labelNames]) <|
    runs_store _ (by simp [Family.labelNames]) <|
    runs_store _ (by simp [Family.labelNames]) <|
    runs_bind_ok (runs_fetch_ok (.GetRouteHealth route.Name) hrh) <|
    runs_store _ (by simp [Family.labelNames]) <|
    runs_bind_ok (runs_fetch_ok (.GetRouteDestinations route.Name) hrd) <|
    runs_bind_ok (runs_forEach_ok rd fun d _ => runs_sampleDestination route d) <|
    runs_bind_ok (runs_fetch_ok (.GetRouteConnections route.Name) hrc) <|
    runs_forEach_ok rc fun c _ => runs_sampleConnection router route c) ?_
  simp [routeEvents, routeStatusEvents]

/-- The routes loop body for a route that is not alive: `WithLabelValues` panics on the
one-value tuple, after the health request and before any write to `route_health`. -/
theorem runs_sampleRoute_dead {mr : RouterClient} (router : Router) {route : Routes}
    {rs : RouteStatus} (hrs : mr.GetRouteStatus route.Name = .ok rs)
    (hrh : mr.GetRouteHealth route.Name = .ok ⟨false⟩) :
    Runs (sampleRoute mr router route) (routeStatusEvents router route rs)
      (.error (.invalidLabelCardinality .routeHealthGauge [route.Name])) := by
  unfold sampleRoute
  refine Runs.congr (runs_bind_ok (runs_with_ok (by simp [Family.labelNames])) <|
    runs_bind_ok (runs_fetch_ok (.GetRouteStatus route.Name) hrs) <|
    runs_store _ (by simp [Family.labelNames]) <|
    runs_store _ (by simp [Family.labelNames]) <|
    runs_store _ (by simp [Family.labelNames]) <|
    runs_bind_ok (runs_fetch_ok (.GetRouteHealth route.Name) hrh) <|
    runs_bind_error (runs_with_error (by simp [Family.labelNames]))) ?_
  simp [routeStatusEvents]

/-! ### The whole cycle -/

theorem runs_cycle_error (timeString : Time → String) {mr : RouterClient} {e : String}
    (h : mr.GetRouterStatus = .error e) :
    Runs (cycle timeString mr) [Event.fetch .GetRouterStatus]
      (.error (.fetchError .GetRouterStatus e)) := by
  unfold cycle
  exact runs_bind_error (runs_fetch_error .GetRouterStatus h)

theorem runs_cycle_ok (timeString : Time → String) {mr : RouterClient} {router : Router}
    {evs : List Event} {out : Except Failure Unit} (h : mr.GetRouterStatus = .ok router)
    (hrest : Runs (sampleAll timeString mr router) evs out) :
    Runs (cycle timeString mr) (Event.fetch .GetRouterStatus :: evs) out := by
  unfold cycle
  exact runs_bind_ok (runs_fetch_ok .GetRouterStatus h) hrest

/-- Every cycle runs the same from every state: it starts with the router status request,
a failed request ends it, and all later events are well formed. -/
theorem cycle_sound (timeString : Time → String) (mr : RouterClient) :
    ∃ evs out, Runs (cycle timeString mr) (Event.fetch .GetRouterStatus :: evs) out ∧
      Good mr (Event.fetch .GetRouterStatus :: evs) out ∧ (∀ ev ∈ evs, ev.Wellformed mr) ∧
      (∀ e, mr.GetRouterStatus = .error e → evs = []) := by
  cases h : mr.GetRouterStatus with
  | error e =>
      refine ⟨[], _, runs_cycle_error timeString h, ?_, by simp, fun _ _ => rfl⟩
      exact ⟨[], rfl, by simp [RouterClient.errorOf, RouterClient.invoke, h], clean_nil mr⟩
  | ok router =>
      obtain ⟨evs, out, hruns, hgood, hP⟩ := sound_sampleAll timeString h
      refine ⟨evs, out, runs_cycle_ok timeString h hruns, ?_, hP, fun e he => by simp at he⟩
      have hc : Clean mr [Event.fetch .GetRouterStatus] := by
        intro c hmem
        simp at hmem
        subst hmem
        simp [RouterClient.errorOf, RouterClient.invoke, h]
      cases out with
      | ok b => exact clean_append hc hgood
      | error x =>
          cases x with
          | fetchError call e =>
              obtain ⟨pre, rfl, he, hpre⟩ := hgood
              exact ⟨Event.fetch .GetRouterStatus :: pre, by simp, he, clean_append hc hpre⟩
          | invalidLabelCardinality fam lvs => exact clean_append hc hgood

theorem errorOf_unique {mr : RouterClient} {call : Call} {e e' : String}
    (h : mr.errorOf call = some e) (h' : mr.errorOf call = some e') : e = e' := by
  rw [h] at h'; exact Option.some.inj h'

/-- A failed request among the events of a good run is the last event, and the run ends in
its error. -/
theorem good_failed_call {α : Type} {mr : RouterClient} {evs : List Event}
    {out : Except Failure α} (hg : Good mr evs out) {call : Call} {e : String}
    (hmem : Event.fetch call ∈ evs) (herr : mr.errorOf call = some e) :
    out = .error (.fetchError call e) ∧ ∃ pre, evs = pre ++ [Event.fetch call] ∧ Clean mr pre := by
  have hnot : ¬ Clean mr evs := fun hc => by
    rw [hc call hmem] at herr; exact absurd herr (by simp)
  cases out with
  | ok b => exact absurd hg hnot
  | error x =>
      cases x with
      | invalidLabelCardinality fam lvs => exact absurd hg hnot
      | fetchError c' e' =>
          obtain ⟨pre, rfl, he', hpre⟩ := hg
          rcases List.mem_append.1 hmem with h | h
          · rw [hpre call h] at herr; exact absurd herr (by simp)
          · simp at h
            subst h
            rw [errorOf_unique herr he']
            exact ⟨rfl, pre, rfl, hpre⟩

theorem replay_snoc_fetch (pre : List Event) (call : Call) (ms : MetricSet) :
    replay (pre ++ [Event.fetch call]) ms = replay pre ms := by
  simp [replay_append, replay, Event.apply]

/-! ## The claims -/

/-- C2. When a request the cycle sends fails, the cycle ends in that request's error, the
failed request is the last event of the cycle, and the registry is the initial one with the
writes recorded before that request replayed, none of them from a later step; when the failed
request is the router status request the registry is unchanged. -/
theorem cycle_failed_request_aborts (timeString : Time → String) (mr : RouterClient)
    (s : SamplerState) (call : Call) (e : String)
    (hcall : Event.fetch call ∈ events (cycle timeString mr) s)
    (herr : mr.errorOf call = some e) :
    (cycle timeString mr s).1 = .error (.fetchError call e) ∧
    (∃ pre, events (cycle timeString mr) s = pre ++ [Event.fetch call] ∧ Clean mr pre ∧
      (cycle timeString mr s).2.metrics = replay pre s.metrics) ∧
    (call = Call.GetRouterStatus → (cycle timeString mr s).2.metrics = s.metrics) := by
  obtain ⟨evs, out, hruns, hgood, -, hfirst⟩ := cycle_sound timeString mr
  rw [events_of_runs hruns] at hcall ⊢
  obtain ⟨hout, pre, hpre, hclean⟩ := good_failed_call hgood hcall herr
  rw [outcome_of_runs hruns, metrics_of_runs hruns]
  refine ⟨hout, ⟨pre, hpre, hclean, ?_⟩, ?_⟩
  · rw [hpre, replay_snoc_fetch]
  · rintro rfl
    cases h : mr.GetRouterStatus with
    | ok router => simp [RouterClient.errorOf, RouterClient.invoke, h] at herr
    | error e' => rw [hfirst e' h]; rfl

/-- The witness for C2: the route status request of `statusDownClient` fails after seven
events, and the router status request of `routerDownClient` fails with the registry untouched. -/
theorem cycle_failed_request_aborts_witness :
    ((Event.fetch (.GetRouteStatus "route1") ∈
          events (cycle exampleTimeString statusDownClient) SamplerState.init ∧
        statusDownClient.errorOf (.GetRouteStatus "route1") = some "connection refused") ∧
      (cycle exampleTimeString statusDownClient SamplerState.init).1 =
        .error (.fetchError (.GetRouteStatus "route1") "connection refused")) ∧
    (cycle exampleTimeString routerDownClient SamplerState.init).2.metrics =
      SamplerState.init.metrics :=
  ⟨⟨⟨by decide!, by decide!⟩,
      (cycle_failed_request_aborts exampleTimeString statusDownClient SamplerState.init
        (.GetRouteStatus "route1") "connection refused" (by decide!) (by decide!)).1⟩,
    (cycle_failed_request_aborts exampleTimeString routerDownClient SamplerState.init
      .GetRouterStatus "connection refused" (by decide!) (by decide!)).2.2 rfl⟩

/-- C4. A cycle, whether it succeeds or fails, removes no series, and a series it does not
store into keeps its value. A second cycle whose route list lacks the name `n` leaves every
series of the route families whose first label is `n` as the first cycle left it. -/
theorem cycle_never_deletes (timeString : Time → String) (mr1 mr2 : RouterClient)
    (s : SamplerState) :
    (∀ f l v, s.metrics f l = some v →
      (cycle timeString mr1 s).2.metrics f l ≠ none ∧
      ((∀ w, Event.set f l w ∉ events (cycle timeString mr1) s) →
        (cycle timeString mr1 s).2.metrics f l = some v)) ∧
    (∀ routes n f l, mr2.GetAllRoutes = .ok routes → (∀ r ∈ routes, r.Name ≠ n) →
      f.ofRoute = true → l.head? = some n →
      (cycle timeString mr2 (cycle timeString mr1 s).2).2.metrics f l =
        (cycle timeString mr1 s).2.metrics f l) := by
  constructor
  · intro f l v hv
    obtain ⟨evs, out, hruns, -, -, -⟩ := cycle_sound timeString mr1
    rw [events_of_runs hruns, metrics_of_runs hruns]
    exact ⟨replay_present _ (by simp [hv]), fun hno => replay_keep _ hno hv⟩
  · intro routes n f l hroutes habsent hf hl
    obtain ⟨evs, out, hruns, -, hP, -⟩ := cycle_sound timeString mr2
    rw [metrics_of_runs hruns]
    have hn : n ∉ mr2.routeNames := by
      simp only [RouterClient.routeNames, hroutes, List.mem_map, not_exists, not_and]
      exact fun r hr => habsent r hr
    have hseries : ¬ SeriesOk mr2 f l := by
      rintro ⟨-, h⟩
      obtain ⟨n', hn', hhead⟩ := h hf
      rw [hl] at hhead
      exact hn (Option.some.inj hhead ▸ hn')
    refine replay_frame _ ?_ ?_
    · intro hmem
      rcases List.mem_cons.1 hmem with h | h
      · cases h
      · exact hseries (hP _ h)
    · intro v hmem
      rcases List.mem_cons.1 hmem with h | h
      · cases h
      · exact hseries (hP _ h).1

/-- The witness for C4: the fixture, then the fixture without `route1`. -/
theorem cycle_never_deletes_witness :
    (cycle exampleTimeString routeGoneClient
        (cycle exampleTimeString fixtureClient SamplerState.init).2).2.metrics
      .routeActiveConnectionsGauge ["route1", "r1"] = some 3 := by
  have h := (cycle_never_deletes exampleTimeString fixtureClient routeGoneClient
    SamplerState.init).2 [] "route1" .routeActiveConnectionsGauge ["route1", "r1"] rfl
    (by simp) rfl rfl
  rw [h]
  decide!

/-- C10. Running the cycle a second time on the same responses leaves the registry as the
first run left it, and ends the same way. -/
theorem cycle_idempotent (timeString : Time → String) (mr : RouterClient) (s : SamplerState) :
    (cycle timeString mr (cycle timeString mr s).2).2.metrics =
        (cycle timeString mr s).2.metrics ∧
      (cycle timeString mr (cycle timeString mr s).2).1 = (cycle timeString mr s).1 := by
  obtain ⟨evs, out, hruns, -, -, -⟩ := cycle_sound timeString mr
  simp only [metrics_of_runs hruns, outcome_of_runs hruns, replay_idem, and_self]

/-! ### Loops and bodies that end normally -/

theorem exists_runs_forEach {α : Type} (body : α → Sampler Unit) :
    ∀ xs : List α, (∀ x ∈ xs, ∃ e o, Runs (body x) e o) → ∃ e o, Runs (forEach xs body) e o
  | [], _ => ⟨[], .ok (), by simpa [forEach_nil] using runs_pure ()⟩
  | x :: xs, h => by
      obtain ⟨e, o, hx⟩ := h x (List.mem_cons_self _ _)
      obtain ⟨e', o', hxs⟩ := exists_runs_forEach body xs fun y hy => h y (List.mem_cons_of_mem _ hy)
      rw [forEach_cons]
      cases o with
      | ok u => exact ⟨_, _, runs_bind_ok hx hxs⟩
      | error f => exact ⟨_, _, runs_bind_error hx⟩

/-- A loop that ends normally ran every body to its normal end, in order. -/
theorem forEach_ok_inv {α : Type} {body : α → Sampler Unit} :
    ∀ (xs : List α) (evs : List Event), (∀ x ∈ xs, ∃ e o, Runs (body x) e o) →
      Runs (forEach xs body) evs (.ok ()) →
      (∀ x ∈ xs, Runs (body x) (trace (body x)) (.ok ())) ∧
        evs = xs.flatMap fun x => trace (body x)
  | [], evs, _, hruns => by
      have h0 : Runs (forEach ([] : List α) body) [] (.ok ()) := by
        simpa [forEach_nil] using runs_pure ()
      exact ⟨by simp, by simpa using (runs_unique hruns h0).1⟩
  | x :: xs, evs, h, hruns => by
      obtain ⟨e, o, hx⟩ := h x (List.mem_cons_self _ _)
      have hrest : ∀ y ∈ xs, ∃ e o, Runs (body y) e o :=
        fun y hy => h y (List.mem_cons_of_mem _ hy)
      obtain ⟨e', o', hxs⟩ := exists_runs_forEach body xs hrest
      rw [forEach_cons] at hruns
      cases o with
      | error f => exact absurd (runs_unique hruns (runs_bind_error hx)).2 (by simp)
      | ok u =>
          obtain ⟨hevs, hout⟩ := runs_unique hruns (runs_bind_ok hx hxs)
          subst hout
          obtain ⟨hall, he'⟩ := forEach_ok_inv xs e' hrest hxs
          have hx' : Runs (body x) (trace (body x)) (.ok ()) := by
            rw [hx.trace_eq]; exact hx
          refine ⟨?_, ?_⟩
          · intro y hy
            rcases List.mem_cons.1 hy with rfl | hy
            · exact hx'
            · exact hall y hy
          · rw [hevs, he', List.flatMap_cons, hx.trace_eq]

theorem runs_ok_not_error {α : Type} {m : Sampler α} {e e' : List Event} {a : α} {f : Failure}
    (h : Runs m e (.ok a)) (h' : Runs m e' (.error f)) : False :=
  absurd (runs_unique h h').2 (by simp)

/-- The routes loop body ends normally only for a route that is alive and whose four
requests succeed; its events are then the ones written out in `routeEvents`. -/
theorem sampleRoute_ok_inv {mr : RouterClient} {router : Router} {route : Routes}
    {evs : List Event} (h : Runs (sampleRoute mr router route) evs (.ok ())) :
    ∃ rs rd rc, mr.GetRouteStatus route.Name = .ok rs ∧
      mr.GetRouteHealth route.Name = .ok ⟨true⟩ ∧
      mr.GetRouteDestinations route.Name = .ok rd ∧
      mr.GetRouteConnections route.Name = .ok rc ∧ evs = routeEvents router route rs rd rc := by
  cases hrs : mr.GetRouteStatus route.Name with
  | error e =>
      have h' : ∃ e' f, Runs (sampleRoute mr router route) e' (.error f) := by
        unfold sampleRoute
        exact ⟨_, _, runs_bind_ok (runs_with_ok (by simp [Family.labelNames])) <|
          runs_bind_error (runs_fetch_error (.GetRouteStatus route.Name) hrs)⟩
      exact (runs_ok_not_error h h'.choose_spec.choose_spec).elim
  | ok rs =>
  cases hrh : mr.GetRouteHealth route.Name with
  | error e =>
      have h' : ∃ e' f, Runs (sampleRoute mr router route) e' (.error f) := by
        unfold sampleRoute
        exact ⟨_, _, runs_bind_ok (runs_with_ok (by simp [Family.labelNames])) <|
          runs_bind_ok (runs_fetch_ok (.GetRouteStatus route.Name) hrs) <|
          runs_store _ (by simp [Family.labelNames]) <|
          runs_store _ (by simp [Family.labelNames]) <|
          runs_store _ (by simp [Family.labelNames]) <|
          runs_bind_error (runs_fetch_error (.GetRouteHealth route.Name) hrh)⟩
      exact (runs_ok_not_error h h'.choose_spec.choose_spec).elim
  | ok rh =>
  obtain ⟨alive⟩ := rh
  cases alive with
  | false => exact (runs_ok_not_error h (runs_sampleRoute_dead router hrs hrh)).elim
  | true =>
  cases hrd : mr.GetRouteDestinations route.Name with
  | error e =>
      have h' : ∃ e' f, Runs (sampleRoute mr router route) e' (.error f) := by
        unfold sampleRoute
        exact ⟨_, _, runs_bind_ok (runs_with_ok (by simp [Family.labelNames])) <|
          runs_bind_ok (runs_fetch_ok (.GetRouteStatus route.Name) hrs) <|
          runs_store _ (by simp [Family.labelNames]) <|
          runs_store _ (by simp [Family.labelNames]) <|
          runs_store _ (by simp [Family.labelNames]) <|
          runs_bind_ok (runs_fetch_ok (.GetRouteHealth route.Name) hrh) <|
          runs_store _ (by simp [Family.labelNames]) <|
          runs_bind_error (runs_fetch_error (.GetRouteDestinations route.Name) hrd)⟩
      exact (runs_ok_not_error h h'.choose_spec.choose_spec).elim
  | ok rd =>
  cases hrc : mr.GetRouteConnections route.Name with
  | error e =>
      have h' : ∃ e' f, Runs (sampleRoute mr router route) e' (.error f) := by
        unfold sampleRoute
        exact ⟨_, _, runs_bind_ok (runs_with_ok (by simp [Family.labelNames])) <|
          runs_bind_ok (runs_fetch_ok (.GetRouteStatus route.Name) hrs) <|
          runs_store _ (by simp [Family.labelNames]) <|
          runs_store _ (by simp [Family.labelNames]) <|
          runs_store _ (by simp [Family.labelNames]) <|
          runs_bind_ok (runs_fetch_ok (.GetRouteHealth route.Name) hrh) <|
          runs_store _ (by simp [Family.labelNames]) <|
          runs_bind_ok (runs_fetch_ok (.GetRouteDestinations route.Name) hrd) <|
          runs_bind_ok (runs_forEach_ok rd fun d _ => runs_sampleDestination route d) <|
          runs_bind_error (runs_fetch_error (.GetRouteConnections route.Name) hrc)⟩
      exact (runs_ok_not_error h h'.choose_spec.choose_spec).elim
  | ok rc =>
      exact ⟨rs, rd, rc, rfl, rfl, rfl, rfl,
        (runs_unique h (runs_sampleRoute_alive router hrs hrh hrd hrc)).1⟩

/-! ### The steps after the router status request -/

theorem exists_runs_of_sound {α : Type} {mr : RouterClient} {P : Event → Prop} {m : Sampler α}
    (h : Sound mr P m) : ∃ e o, Runs m e o :=
  ⟨_, _, h.runs⟩

/-- The rest of the cycle once both lists are fetched and the metadata loop ended normally. -/
theorem runs_sampleAll (timeString : Time → String) {mr : RouterClient} {router : Router}
    {metadata : List Metadata} {routes : List Routes} {em er : List Event}
    {out : Except Failure Unit} (hmd : mr.GetAllMetadata = .ok metadata)
    (hm : Runs (forEach metadata (sampleMetadata timeString mr router)) em (.ok ()))
    (hroutes : mr.GetAllRoutes = .ok routes)
    (hrl : Runs (forEach routes (sampleRoute mr router)) er out) :
    Runs (sampleAll timeString mr router)
      (Event.touch .routerStatusGauge (routerStatusLabels timeString router) ::
        Event.fetch .GetAllMetadata :: (em ++ Event.fetch .GetAllRoutes :: er)) out := by
  unfold sampleAll
  refine Runs.congr (runs_bind_ok (runs_with_ok (by simp [Family.labelNames])) <|
    runs_bind_ok (runs_fetch_ok .GetAllMetadata hmd) <|
    runs_bind_ok hm <|
    runs_bind_ok (runs_fetch_ok .GetAllRoutes hroutes) hrl) ?_
  simp [routerStatusLabels]

/-- The rest of the cycle when the metadata loop panics. -/
theorem runs_sampleAll_metadata_panic (timeString : Time → String) {mr : RouterClient}
    {router : Router} {metadata : List Metadata} {em : List Event} {f : Failure}
    (hmd : mr.GetAllMetadata = .ok metadata)
    (hm : Runs (forEach metadata (sampleMetadata timeString mr router)) em (.error f)) :
    Runs (sampleAll timeString mr router)
      (Event.touch .routerStatusGauge (routerStatusLabels timeString router) ::
        Event.fetch .GetAllMetadata :: em) (.error f) := by
  unfold sampleAll
  refine Runs.congr (runs_bind_ok (runs_with_ok (by simp [Family.labelNames])) <|
    runs_bind_ok (runs_fetch_ok .GetAllMetadata hmd) <|
    runs_bind_error hm) ?_
  simp [routerStatusLabels]

theorem runs_sampleAll_metadata_error (timeString : Time → String) {mr : RouterClient}
    {router : Router} {e : String} (hmd : mr.GetAllMetadata = .error e) :
    Runs (sampleAll timeString mr router)
      [Event.touch .routerStatusGauge (routerStatusLabels timeString router),
        Event.fetch .GetAllMetadata] (.error (.fetchError .GetAllMetadata e)) := by
  unfold sampleAll
  refine Runs.congr (runs_bind_ok (runs_with_ok (by simp [Family.labelNames])) <|
    runs_bind_error (runs_fetch_error .GetAllMetadata hmd)) ?_
  simp [routerStatusLabels]

theorem runs_sampleAll_routes_error (timeString : Time → String) {mr : RouterClient}
    {router : Router} {metadata : List Metadata} {em : List Event} {e : String}
    (hmd : mr.GetAllMetadata = .ok metadata)
    (hm : Runs (forEach metadata (sampleMetadata timeString mr router)) em (.ok ()))
    (hroutes : mr.GetAllRoutes = .error e) :
    Runs (sampleAll timeString mr router)
      (Event.touch .routerStatusGauge (routerStatusLabels timeString router) ::
        Event.fetch .GetAllMetadata :: (em ++ [Event.fetch .GetAllRoutes]))
      (.error (.fetchError .GetAllRoutes e)) := by
  unfold sampleAll
  refine Runs.congr (runs_bind_ok (runs_with_ok (by simp [Family.labelNames])) <|
    runs_bind_ok (runs_fetch_ok .GetAllMetadata hmd) <|
    runs_bind_ok hm <|
    runs_bind_error (runs_fetch_error .GetAllRoutes hroutes)) ?_
  simp [routerStatusLabels]

/-- A cycle that ends normally fetched the router status and the route list, found every
route alive with its four requests succeeding, and recorded the events of every route. -/
theorem cycle_ok_inv (timeString : Time → String) (mr : RouterClient) (s : SamplerState)
    (hok : (cycle timeString mr s).1 = .ok ()) :
    ∃ router routes, mr.GetRouterStatus = .ok router ∧ mr.GetAllRoutes = .ok routes ∧
      ∀ r ∈ routes, ∃ rs rd rc, mr.GetRouteStatus r.Name = .ok rs ∧
        mr.GetRouteHealth r.Name = .ok ⟨true⟩ ∧
        mr.GetRouteDestinations r.Name = .ok rd ∧
        mr.GetRouteConnections r.Name = .ok rc ∧
        ∀ ev ∈ routeEvents router r rs rd rc, ev ∈ events (cycle timeString mr) s := by
  cases hr : mr.GetRouterStatus with
  | error e =>
      rw [outcome_of_runs (runs_cycle_error timeString hr)] at hok
      simp at hok
  | ok router =>
  cases hmd : mr.GetAllMetadata with
  | error e =>
      rw [outcome_of_runs (runs_cycle_ok timeString hr
        (runs_sampleAll_metadata_error timeString hmd))] at hok
      simp at hok
  | ok metadata =>
  obtain ⟨em, om, hm⟩ := exists_runs_forEach (sampleMetadata timeString mr router)
    metadata fun m _ => exists_runs_of_sound (sound_sampleMetadata timeString hr m)
  cases om with
  | error f =>
      rw [outcome_of_runs (runs_cycle_ok timeString hr
        (runs_sampleAll_metadata_panic timeString hmd hm))] at hok
      simp at hok
  | ok u =>
  cases hroutes : mr.GetAllRoutes with
  | error e =>
      rw [outcome_of_runs (runs_cycle_ok timeString hr
        (runs_sampleAll_routes_error timeString hmd hm hroutes))] at hok
      simp at hok
  | ok routes =>
  have hbody : ∀ r ∈ routes, ∃ e o, Runs (sampleRoute mr router r) e o := fun r hmem =>
    exists_runs_of_sound (sound_sampleRoute hr (mem_routeNames hroutes hmem))
  obtain ⟨er, o, hrl⟩ := exists_runs_forEach _ routes hbody
  have hcycle := runs_cycle_ok timeString hr (runs_sampleAll timeString hmd hm hroutes hrl)
  rw [outcome_of_runs hcycle] at hok
  subst hok
  obtain ⟨hall, her⟩ := forEach_ok_inv routes er hbody hrl
  refine ⟨router, routes, rfl, rfl, fun r hmem => ?_⟩
  obtain ⟨rs, rd, rc, h1, h2, h3, h4, htrace⟩ := sampleRoute_ok_inv (hall r hmem)
  refine ⟨rs, rd, rc, h1, h2, h3, h4, fun ev hev => ?_⟩
  rw [events_of_runs hcycle, her]
  have : ev ∈ routes.flatMap fun x => trace (sampleRoute mr router x) :=
    List.mem_flatMap.2 ⟨r, hmem, htrace ▸ hev⟩
  simp [this]

/-- C7. After a cycle that ends normally, the active-connections, total-connections and
blocked-hosts series of every route of the list, at the tuple of route name and router
hostname, hold the counts the route status request returned for that route, unchanged; a
count of zero is a series holding zero. -/
theorem route_counts_exported (timeString : Time → String) (mr : RouterClient)
    (s : SamplerState) (router : Router) (routes : List Routes) (route : Routes)
    (rs : RouteStatus) (hok : (cycle timeString mr s).1 = .ok ())
    (hr : mr.GetRouterStatus = .ok router) (hroutes : mr.GetAllRoutes = .ok routes)
    (hmem : route ∈ routes) (hrs : mr.GetRouteStatus route.Name = .ok rs) :
    (cycle timeString mr s).2.metrics .routeActiveConnectionsGauge [route.Name, router.Hostname] =
        some rs.ActiveConnections ∧
      (cycle timeString mr s).2.metrics .routeTotalConnectionsGauge [route.Name, router.Hostname] =
        some rs.TotalConnections ∧
      (cycle timeString mr s).2.metrics .routeBlockedHostsGauge [route.Name, router.Hostname] =
        some rs.BlockedHosts := by
  obtain ⟨router', routes', hr', hroutes', hall⟩ := cycle_ok_inv timeString mr s hok
  obtain rfl : router' = router := by rw [hr] at hr'; exact (Except.ok.inj hr').symm
  obtain rfl : routes' = routes := by rw [hroutes] at hroutes'; exact (Except.ok.inj hroutes').symm
  obtain ⟨rs', rd, rc, hrs', -, -, -, hin⟩ := hall route hmem
  obtain rfl : rs' = rs := by rw [hrs] at hrs'; exact (Except.ok.inj hrs').symm
  obtain ⟨evs, out, hruns, -, hP, -⟩ := cycle_sound timeString mr
  rw [events_of_runs hruns] at hin
  rw [metrics_of_runs hruns]
  have hvalue : ∀ (f : Family) (v w : Int),
      Event.set f [route.Name, router'.Hostname] w ∈ Event.fetch .GetRouterStatus :: evs →
      (ValueOk mr f [route.Name, router'.Hostname] w → w = v) → w = v := by
    intro f v w hw himp
    rcases List.mem_cons.1 hw with h | h
    · cases h
    · exact himp (hP _ h).2
  refine ⟨replay_value _ (hin _ ?_) fun w hw => hvalue _ _ w hw ?_,
    replay_value _ (hin _ ?_) fun w hw => hvalue _ _ w hw ?_,
    replay_value _ (hin _ ?_) fun w hw => hvalue _ _ w hw ?_⟩
  any_goals simp [routeEvents, routeStatusEvents]
  all_goals
    rintro ⟨n, rs'', hn, hrs'', rfl⟩
    simp at hn
    subst hn
    rw [hrs] at hrs''
    rw [← Except.ok.inj hrs'']

/-- The witness for C7: the fixture, whose route has 3 active and 10 total connections and
no blocked host. -/
theorem route_counts_exported_witness :
    (cycle exampleTimeString fixtureClient SamplerState.init).2.metrics
        .routeActiveConnectionsGauge ["route1", "r1"] = some 3 ∧
      (cycle exampleTimeString fixtureClient SamplerState.init).2.metrics
        .routeTotalConnectionsGauge ["route1", "r1"] = some 10 ∧
      (cycle exampleTimeString fixtureClient SamplerState.init).2.metrics
        .routeBlockedHostsGauge ["route1", "r1"] = some 0 := by
  have h := route_counts_exported exampleTimeString fixtureClient SamplerState.init fixtureRouter
    [⟨"route1"⟩] ⟨"route1"⟩ ⟨3, 10, 0⟩ (by decide!) rfl rfl (by simp) (by simp [fixtureClient])
  simpa [fixtureRouter] using h

theorem wrapInt64_of_inRange {x : Int} (h1 : -(2 ^ 63 : Int) ≤ x) (h2 : x < (2 ^ 63 : Int)) :
    wrapInt64 x = x := by
  unfold wrapInt64
  norm_num at h1 h2 ⊢
  omega

theorem float64_of_le {n : Int} (h : n.natAbs ≤ 2 ^ 53) : float64 n = n := by
  unfold float64
  rw [if_pos h]

/-- Above `2 ^ 53` the conversion rounds: the product for the instant 72057594037929 s is
stored as 72057594037928992. -/
theorem float64_rounds : float64 72057594037929000 = 72057594037928992 := by
  decide!

/-- For an instant whose millisecond count is at most `2 ^ 53` in magnitude, neither the
`int64` product nor its conversion to `float64` changes the count. -/
theorem float64_wrapInt64_of_exact {t : Time} (h : t.Exact) :
    float64 (wrapInt64 (t.Unix * 1000)) = 1000 * t.Unix := by
  obtain ⟨h1, h2⟩ := h
  norm_num at h1 h2
  have hw : wrapInt64 (t.Unix * 1000) = t.Unix * 1000 :=
    wrapInt64_of_inRange (by norm_num; omega) (by norm_num; omega)
  rw [hw, float64_of_le (by norm_num; omega), mul_comm]

/-- C6 (amended). In a cycle that ends normally, for every connection fetched and each of its
four instants, the value stored into the matching `route_connections_time_*` series is the
`float64` of the `int64` product of the whole seconds since the epoch and 1000. For an
instant whose product is at most `2 ^ 53` in magnitude this is 1000 times the whole seconds
since the epoch: the milliseconds since the epoch without the sub-second part. -/
theorem connection_times_exported (timeString : Time → String) (mr : RouterClient)
    (s : SamplerState) (router : Router) (routes : List Routes) (route : Routes)
    (rc : List RouteConnections) (c : RouteConnections) (family : Family) (t : Time)
    (hok : (cycle timeString mr s).1 = .ok ())
    (hr : mr.GetRouterStatus = .ok router) (hroutes : mr.GetAllRoutes = .ok routes)
    (hmem : route ∈ routes) (hrc : mr.GetRouteConnections route.Name = .ok rc) (hc : c ∈ rc)
    (ht : (family, t) ∈ connectionTimes c) :
    Event.set family (connectionLabels router route c) (float64 (wrapInt64 (t.Unix * 1000))) ∈
        events (cycle timeString mr) s ∧
      (t.Exact → Event.set family (connectionLabels router route c) (1000 * t.Unix) ∈
        events (cycle timeString mr) s) ∧
      1000 * t.Unix = t.UnixMilli - ((t.nsec / 1000000 : Nat) : Int) := by
  obtain ⟨router', routes', hr', hroutes', hall⟩ := cycle_ok_inv timeString mr s hok
  obtain rfl : router' = router := by rw [hr] at hr'; exact (Except.ok.inj hr').symm
  obtain rfl : routes' = routes := by rw [hroutes] at hroutes'; exact (Except.ok.inj hroutes').symm
  obtain ⟨rs, rd, rc', -, -, -, hrc', hin⟩ := hall route hmem
  obtain rfl : rc' = rc := by rw [hrc] at hrc'; exact (Except.ok.inj hrc').symm
  have hconn : ∀ ev ∈ connectionEvents router' route c,
      ev ∈ events (cycle timeString mr) s := by
    intro ev hev
    refine hin ev ?_
    simp only [routeEvents, List.mem_append, List.mem_flatMap]
    exact Or.inr ⟨c, hc, hev⟩
  have hset : Event.set family (connectionLabels router' route c)
      (float64 (wrapInt64 (t.Unix * 1000))) ∈ events (cycle timeString mr) s := by
    refine hconn _ ?_
    simp only [connectionTimes, List.mem_cons, Prod.mk.injEq, List.mem_singleton,
      List.not_mem_nil, or_false] at ht
    rcases ht with ⟨rfl, rfl⟩ | ⟨rfl, rfl⟩ | ⟨rfl, rfl⟩ | ⟨rfl, rfl⟩ <;>
      simp [connectionEvents]
  refine ⟨hset, fun hexact => ?_, ?_⟩
  · rw [← float64_wrapInt64_of_exact hexact]; exact hset
  · simp only [Time.Unix, Time.UnixMilli]
    ring

/-- The witness for C6 (amended): of the connection of `farClient`, the start instant, half a
second past 1700000000 s, is stored as 1700000000000, and the instant of the last receipt,
72057594037929 s, beyond the range in which `float64` is exact, is stored as
72057594037928992. -/
theorem connection_times_exported_witness :
    Event.set .routeConnectionsTimeStartedGauge
        ["route1", "r1", "192.168.0.7:51234", "10.0.0.1:3306"] 1700000000000 ∈
      events (cycle exampleTimeString farClient) SamplerState.init ∧
    Event.set .routeConnectionsTimeLastReceivedFromServerGauge
        ["route1", "r1", "192.168.0.7:51234", "10.0.0.1:3306"] 72057594037928992 ∈
      events (cycle exampleTimeString farClient) SamplerState.init := by
  have h1 := (connection_times_exported exampleTimeString farClient SamplerState.init
    fixtureRouter [⟨"route1"⟩] ⟨"route1"⟩ [farConnection] farConnection
    .routeConnectionsTimeStartedGauge farConnection.TimeStarted (by decide!) rfl rfl
    (by simp) rfl (by simp) (by simp [connectionTimes])).2.1
    (by simp [Time.Exact, Time.Unix, farConnection])
  have h2 := (connection_times_exported exampleTimeString farClient SamplerState.init
    fixtureRouter [⟨"route1"⟩] ⟨"route1"⟩ [farConnection] farConnection
    .routeConnectionsTimeLastReceivedFromServerGauge farConnection.TimeLastReceivedFromServer
    (by decide!) rfl rfl (by simp) rfl (by simp) (by simp [connectionTimes])).1
  have e : float64 (wrapInt64 (farConnection.TimeLastReceivedFromServer.Unix * 1000)) =
      72057594037928992 := by decide!
  rw [e] at h2
  exact ⟨by simpa [connectionLabels, farConnection, Time.Unix, fixtureRouter] using h1,
    by simpa [connectionLabels, farConnection, fixtureRouter] using h2⟩

/-- The counterexample to C6: an instant half a second past a whole second is 1700000000500
milliseconds after the epoch, and the cycle stores 1700000000000. -/
theorem half_second_is_dropped :
    (cycle exampleTimeString halfSecondClient SamplerState.init).1 = .ok () ∧
      halfSecondClient.GetRouteConnections "route1" = .ok [halfSecondConnection] ∧
      halfSecondConnection.TimeStarted.UnixMilli = 1700000000500 ∧
      (cycle exampleTimeString halfSecondClient SamplerState.init).2.metrics
        .routeConnectionsTimeStartedGauge
        ["route1", "r1", "192.168.0.7:51234", "10.0.0.1:3306"] = some 1700000000000 := by
  decide!

/-- The routes loop when every request for every route succeeds: it ends normally when all
routes are alive, and otherwise panics on the one-value tuple of a route that is not alive. -/
theorem runs_routes_loop {mr : RouterClient} (router : Router) :
    ∀ routes : List Routes,
      (∀ r ∈ routes, (∃ rs, mr.GetRouteStatus r.Name = .ok rs) ∧
        (∃ rh, mr.GetRouteHealth r.Name = .ok rh) ∧
        (∃ rd, mr.GetRouteDestinations r.Name = .ok rd) ∧
        ∃ rc, mr.GetRouteConnections r.Name = .ok rc) →
      ∃ evs out, Runs (forEach routes (sampleRoute mr router)) evs out ∧
        ((out = .ok () ∧ ∀ r ∈ routes, mr.GetRouteHealth r.Name = .ok ⟨true⟩) ∨
          ∃ r ∈ routes, mr.GetRouteHealth r.Name = .ok ⟨false⟩ ∧
            out = .error (.invalidLabelCardinality .routeHealthGauge [r.Name]))
  | [], _ => ⟨[], .ok (), by simpa [forEach_nil] using runs_pure (), Or.inl ⟨rfl, by simp⟩⟩
  | x :: xs, h => by
      obtain ⟨⟨rs, hrs⟩, ⟨⟨alive⟩, hrh⟩, ⟨rd, hrd⟩, ⟨rc, hrc⟩⟩ := h x (List.mem_cons_self _ _)
      rw [forEach_cons]
      cases alive with
      | false =>
          exact ⟨_, _, runs_bind_error (runs_sampleRoute_dead router hrs hrh),
            Or.inr ⟨x, List.mem_cons_self _ _, hrh, rfl⟩⟩
      | true =>
          obtain ⟨evs, out, hruns, hout⟩ :=
            runs_routes_loop router xs fun y hy => h y (List.mem_cons_of_mem _ hy)
          refine ⟨_, _, runs_bind_ok (runs_sampleRoute_alive router hrs hrh hrd hrc) hruns, ?_⟩
          rcases hout with ⟨rfl, hall⟩ | ⟨r, hr, hdead, rfl⟩
          · refine Or.inl ⟨rfl, fun y hy => ?_⟩
            rcases List.mem_cons.1 hy with rfl | hy
            · exact hrh
            · exact hall y hy
          · exact Or.inr ⟨r, List.mem_cons_of_mem _ hr, hdead, rfl⟩

/-- C9. When every request succeeds, the cycle ends normally exactly when every route of the
list is reported alive; otherwise it panics with the cardinality failure of `route_health`
on the one-value tuple of a route that is not alive. -/
theorem cycle_completes_iff_all_alive (timeString : Time → String) (mr : RouterClient)
    (s : SamplerState) (router : Router) (metadata : List Metadata) (routes : List Routes)
    (hfetch : FetchesSucceed mr router metadata routes) :
    ((cycle timeString mr s).1 = .ok () ↔
        ∀ r ∈ routes, mr.GetRouteHealth r.Name = .ok ⟨true⟩) ∧
      ((cycle timeString mr s).1 ≠ .ok () →
        ∃ r ∈ routes, mr.GetRouteHealth r.Name = .ok ⟨false⟩ ∧
          (cycle timeString mr s).1 =
            .error (.invalidLabelCardinality .routeHealthGauge [r.Name])) := by
  obtain ⟨hr, hmd, hmeta, hroutes, hroute⟩ := hfetch
  have hm : Runs (forEach metadata (sampleMetadata timeString mr router))
      (metadata.flatMap fun m => trace (sampleMetadata timeString mr router m)) (.ok ()) := by
    refine runs_forEach_ok metadata fun m hmem => ?_
    obtain ⟨⟨mc, hmc⟩, ⟨ms, hms⟩⟩ := hmeta m hmem
    have h := runs_sampleMetadata timeString router hmc hms
    rw [h.trace_eq]; exact h
  obtain ⟨evs, out, hruns, hout⟩ := runs_routes_loop router routes hroute
  rw [outcome_of_runs (runs_cycle_ok timeString hr (runs_sampleAll timeString hmd hm hroutes hruns))]
  rcases hout with ⟨rfl, hall⟩ | ⟨r, hmem, hdead, rfl⟩
  · exact ⟨⟨fun _ => hall, fun _ => rfl⟩, fun h => absurd rfl h⟩
  · refine ⟨⟨fun h => by simp at h, fun hall => ?_⟩, fun _ => ⟨r, hmem, hdead, rfl⟩⟩
    rw [hall r hmem] at hdead
    simp at hdead

theorem fixture_fetches_succeed (health : String → Except String RouteHealth)
    (h : ∃ rh, health "route1" = .ok rh) :
    FetchesSucceed { fixtureClient with GetRouteHealth := health } fixtureRouter
      [⟨"meta1"⟩] [⟨"route1"⟩] := by
  refine ⟨rfl, rfl, ?_, rfl, ?_⟩
  · simp [fixtureClient]
  · simpa [fixtureClient] using h

/-- The witness for C9: the fixture, whose route is alive, and `deadRouteClient`, whose route
is not. -/
theorem cycle_completes_iff_all_alive_witness :
    (cycle exampleTimeString fixtureClient SamplerState.init).1 = .ok () ∧
      (cycle exampleTimeString deadRouteClient SamplerState.init).1 ≠ .ok () := by
  have h1 := (cycle_completes_iff_all_alive exampleTimeString fixtureClient SamplerState.init _
    _ _ (fixture_fetches_succeed fixtureClient.GetRouteHealth ⟨⟨true⟩, by simp [fixtureClient]⟩)).1
  have h2 := (cycle_completes_iff_all_alive exampleTimeString deadRouteClient SamplerState.init _
    _ _ (fixture_fetches_succeed (fun _ => .ok ⟨false⟩) ⟨⟨false⟩, rfl⟩)).1
  refine ⟨h1.2 ?_, fun hok => ?_⟩
  · simp [fixtureClient]
  · have := h2.1 hok ⟨"route1"⟩ (by simp)
    simp [deadRouteClient] at this

/-- C8 (amended). Every cycle sends the router status request exactly once, and the hostname
it returns is the value of the router label (`hostname` of `router_status`, `router_host`,
`router_hostname`) of every series the cycle obtains or stores into in a family that declares
such a label; these are `router_status`, `metadata_config_node`, and the route families other
than `route` and `route_destinations`. -/
theorem router_status_fetched_once (timeString : Time → String) (mr : RouterClient)
    (s : SamplerState) :
    (events (cycle timeString mr) s).count (Event.fetch .GetRouterStatus) = 1 ∧
      (∀ router ev f l name, mr.GetRouterStatus = .ok router →
        ev ∈ events (cycle timeString mr) s → ev.series = some (f, l) →
        f.routerLabel = some name → labelValue f l name = some router.Hostname) ∧
      ∀ f : Family, f.routerLabel = none ↔
        f ∈ [Family.metadataGauge, .metadataConfigGauge, .metadataStatusGauge, .routeGauge, .routeDestinationsGauge] := by
  obtain ⟨evs, out, hruns, -, hP, -⟩ := cycle_sound timeString mr
  rw [events_of_runs hruns]
  refine ⟨?_, ?_, fun f => by cases f <;> decide⟩
  · rw [List.count_cons_self, List.count_eq_zero.2]
    intro hmem
    exact (hP _ hmem) rfl
  · intro router ev f l name hr hev hseries hname
    rcases List.mem_cons.1 hev with rfl | hmem
    · simp [Event.series] at hseries
    · have hwf := hP ev hmem
      cases ev with
      | fetch c => simp [Event.series] at hseries
      | touch f' l' =>
          simp only [Event.series, Option.some.injEq, Prod.mk.injEq] at hseries
          obtain ⟨rfl, rfl⟩ := hseries
          exact hwf.1 name router hname hr
      | set f' l' v =>
          simp only [Event.series, Option.some.injEq, Prod.mk.injEq] at hseries
          obtain ⟨rfl, rfl⟩ := hseries
          exact hwf.1.1 name router hname hr

/-- The witness for C8 (amended): in the cycle over the fixture the router status request
occurs once, and the `route_health` series carries the hostname `r1` under `router_hostname`. -/
theorem router_status_fetched_once_witness :
    (events (cycle exampleTimeString fixtureClient) SamplerState.init).count
        (Event.fetch .GetRouterStatus) = 1 ∧
      labelValue .routeHealthGauge ["route1", "r1"] "router_hostname" =
        some fixtureRouter.Hostname :=
  ⟨(router_status_fetched_once exampleTimeString fixtureClient SamplerState.init).1,
    (router_status_fetched_once exampleTimeString fixtureClient SamplerState.init).2.1
      fixtureRouter (Event.set .routeHealthGauge ["route1", "r1"] 1) .routeHealthGauge
      ["route1", "r1"] "router_hostname" rfl (by decide!) rfl (by decide!)⟩

/-- The counterexample to C8: in the cycle over the fixture, whose router is `r1`, the series
of the `metadata` family is obtained with the single label `meta1`. -/
theorem metadata_series_lacks_hostname :
    fixtureClient.GetRouterStatus = .ok fixtureRouter ∧
      fixtureRouter.Hostname = "r1" ∧
      Family.ofMetadata .metadataGauge = true ∧
      Event.touch .metadataGauge ["meta1"] ∈
        events (cycle exampleTimeString fixtureClient) SamplerState.init ∧
      "r1" ∉ ["meta1"] := by
  decide!

/-! ### The registry as a list of series -/

theorem lookup_upsert (k : Family × List String) (g : Option Int → Int) (k2 : Family × List String) :
    ∀ series : List Series,
      (upsert k g series).lookup k2 =
        if k2 = k then some (g (series.lookup k)) else series.lookup k2
  | [] => by
      by_cases h : k2 = k
      · subst h; simp [upsert, List.lookup]
      · have hb : (k2 == k) = false := beq_eq_false_iff_ne.2 h
        simp [upsert, List.lookup, h, hb]
  | (k', v) :: rest => by
      have ih := lookup_upsert k g k2 rest
      by_cases hk : k = k'
      · subst hk
        by_cases h : k2 = k
        · subst h; simp [upsert, List.lookup]
        · have hb : (k2 == k) = false := beq_eq_false_iff_ne.2 h
          simp [upsert, List.lookup, h, hb]
      · have hkb : (k == k') = false := beq_eq_false_iff_ne.2 hk
        by_cases h : k2 = k
        · subst h
          simp [upsert, List.lookup, hk, hkb, ih]
        · by_cases h2 : k2 = k'
          · subst h2
            simp [upsert, List.lookup, hk, h]
          · have hb2 : (k2 == k') = false := beq_eq_false_iff_ne.2 h2
            simp [upsert, List.lookup, hk, h, hb2, ih]

theorem apply_ofList (ev : Event) (series : List Series) :
    ev.apply (MetricSet.ofList series) = MetricSet.ofList (ev.applyList series) := by
  funext f l
  cases ev with
  | fetch c => rfl
  | touch f' l' =>
      simp only [Event.apply, Event.applyList, MetricSet.ofList, MetricSet.getOrCreate,
        lookup_upsert, Prod.mk.injEq]
      by_cases h : f = f' ∧ l = l'
      · obtain ⟨rfl, rfl⟩ := h
        cases hx : List.lookup (f, l) series <;> simp
      · simp [h]
  | set f' l' v =>
      simp only [Event.apply, Event.applyList, MetricSet.ofList, MetricSet.store,
        lookup_upsert, Prod.mk.injEq]

/-- Replaying events on a registry given as a list is replaying them on the list. -/
theorem replay_ofList (evs : List Event) :
    ∀ series : List Series,
      replay evs (MetricSet.ofList series) = MetricSet.ofList (evs.foldl Event.applyList series) := by
  induction evs with
  | nil => intro series; rfl
  | cons ev evs ih =>
      intro series
      rw [replay_cons, apply_ofList, ih]; rfl

/-- The registry after a cycle from process start is the list of series of its events. -/
theorem cycle_from_init (timeString : Time → String) (mr : RouterClient) :
    (cycle timeString mr SamplerState.init).2.metrics =
      MetricSet.ofList (seriesOf (events (cycle timeString mr) SamplerState.init)) := by
  obtain ⟨evs, out, hruns, -, -, -⟩ := cycle_sound timeString mr
  rw [metrics_of_runs hruns, events_of_runs hruns]
  exact replay_ofList _ []

theorem lookup_other_family (f : Family) (l : List String) :
    ∀ series : List Series, (∀ e ∈ series, e.1.1 ≠ f) → series.lookup (f, l) = none
  | [], _ => rfl
  | ((f', l'), v) :: rest, h => by
      have hf : f ≠ f' := fun hf => h _ (List.mem_cons_self _ _) hf.symm
      have := lookup_other_family f l rest fun e he => h e (List.mem_cons_of_mem _ he)
      have hb : ((f, l) == (f', l')) = false :=
        beq_eq_false_iff_ne.2 fun hk => hf (congrArg Prod.fst hk)
      simp [List.lookup, hb, this]

/-- C3. From an empty registry, one cycle over the fixture ends normally and leaves exactly
the eighteen series of `fixtureSeries`: one each of router status, metadata, metadata config,
metadata status, route and route destinations, two metadata config nodes, the three counts
3, 10 and 0 and the health value 1 at `route1`, `r1`, and one series in each of the six
connection families; no tuple occurs twice and no other series exists. -/
theorem fixture_cycle_series :
    (cycle exampleTimeString fixtureClient SamplerState.init).1 = .ok () ∧
      (cycle exampleTimeString fixtureClient SamplerState.init).2.metrics =
        MetricSet.ofList fixtureSeries ∧
      (fixtureSeries.map Prod.fst).Nodup ∧
      ∀ f : Family, (fixtureSeries.filter fun e => e.1.1 = f).length =
        if f = .metadataConfigNodeGauge then 2 else 1 := by
  refine ⟨by decide!, ?_, by decide!, fun f => by cases f <;> decide!⟩
  rw [cycle_from_init]
  exact congrArg MetricSet.ofList (by decide!)

/-- C1 at its failing input: over the fixture with `route1` not alive, the cycle panics with
the cardinality failure of `route_health` on the one-value tuple, and the registry holds no
`route_health` series at all, so none with the value zero. -/
theorem dead_route_panics :
    (cycle exampleTimeString deadRouteClient SamplerState.init).1 =
        .error (.invalidLabelCardinality .routeHealthGauge ["route1"]) ∧
      ∀ labels, (cycle exampleTimeString deadRouteClient SamplerState.init).2.metrics
        .routeHealthGauge labels = none := by
  refine ⟨by decide!, fun labels => ?_⟩
  rw [cycle_from_init]
  exact lookup_other_family _ _ _ (by decide!)

/-- A series obtained during a replay exists after it. -/
theorem replay_touched (evs : List Event) {f : Family} {l : List String} :
    ∀ {ms : MetricSet}, Event.touch f l ∈ evs → replay evs ms f l ≠ none := by
  induction evs with
  | nil => intro ms h; simp at h
  | cons ev evs ih =>
      intro ms h
      rcases List.mem_cons.1 h with h | h
      · subst h
        refine replay_present evs ?_
        cases hx : ms f l <;> simp [Event.apply, MetricSet.getOrCreate, hx]
      · exact ih h

/-- The metadata loop body for an entry one of whose requests fails. -/
theorem runs_sampleMetadata_abort (timeString : Time → String) {mr : RouterClient}
    (router : Router) {m : Metadata} {call : Call} {e : String}
    (hfail : metadataAbort mr m = some (call, e)) :
    Runs (sampleMetadata timeString mr router m) (metadataAbortEvents mr router m)
        (.error (.fetchError call e)) ∧
      (metadataAbortEvents mr router m).getLast? = some (Event.fetch call) ∧
      Event.touch .metadataGauge [m.Name] ∈ metadataAbortEvents mr router m := by
  unfold metadataAbort at hfail
  unfold metadataAbortEvents
  cases hmc : mr.GetMetadataConfig m.Name with
  | error e' =>
      simp only [hmc, Option.some.injEq, Prod.mk.injEq] at hfail
      obtain ⟨rfl, rfl⟩ := hfail
      exact ⟨runs_sampleMetadata_config_error timeString router hmc, by simp, by simp⟩
  | ok mc =>
      cases hms : mr.GetMetadataStatus m.Name with
      | ok ms => simp [hmc, hms] at hfail
      | error e' =>
          simp only [hmc, hms, Option.some.injEq, Prod.mk.injEq] at hfail
          obtain ⟨rfl, rfl⟩ := hfail
          exact ⟨runs_sampleMetadata_status_error timeString router hmc hms,
            List.getLast?_concat _, by simp [metadataConfigEvents]⟩

/-- C5 (amended). When a request of the metadata loop fails for an entry, the earlier entries
having been fetched, the cycle ends in that request's error with the failed request as its
last event, so nothing is written after it; the writes made before it are in the registry:
the router status series, every series of the earlier entries, and for the failing entry its
`metadata` series, with its config and config-node series when it is the status request that
fails. The `metadata` series of the earlier entries and of the failing entry exist after the
failed cycle. -/
theorem metadata_failure_keeps_earlier_writes (timeString : Time → String)
    (mr : RouterClient) (s : SamplerState) (router : Router) (pre : List Metadata)
    (m : Metadata) (post : List Metadata) (cfg : Metadata → MetadataConfig)
    (st : Metadata → MetadataStatus) (call : Call) (e : String)
    (hr : mr.GetRouterStatus = .ok router)
    (hmd : mr.GetAllMetadata = .ok (pre ++ m :: post))
    (hpre : ∀ x ∈ pre, mr.GetMetadataConfig x.Name = .ok (cfg x) ∧
      mr.GetMetadataStatus x.Name = .ok (st x))
    (hfail : metadataAbort mr m = some (call, e)) :
    (cycle timeString mr s).1 = .error (.fetchError call e) ∧
      events (cycle timeString mr) s =
        Event.fetch .GetRouterStatus ::
          Event.touch .routerStatusGauge (routerStatusLabels timeString router) ::
          Event.fetch .GetAllMetadata ::
          (pre.flatMap (fun x => metadataEvents timeString router x (cfg x) (st x)) ++
            metadataAbortEvents mr router m) ∧
      (metadataAbortEvents mr router m).getLast? = some (Event.fetch call) ∧
      (cycle timeString mr s).2.metrics = replay (events (cycle timeString mr) s) s.metrics ∧
      ∀ x ∈ pre ++ [m], (cycle timeString mr s).2.metrics .metadataGauge [x.Name] ≠ none := by
  obtain ⟨hx, hlast, htouch⟩ := runs_sampleMetadata_abort timeString router hfail
  have hloop := runs_forEach_error post hx pre fun y hy =>
    runs_sampleMetadata timeString router (hpre y hy).1 (hpre y hy).2
  have hcycle := runs_cycle_ok timeString hr
    (runs_sampleAll_metadata_panic timeString hmd hloop)
  rw [outcome_of_runs hcycle, events_of_runs hcycle, metrics_of_runs hcycle]
  refine ⟨rfl, rfl, hlast, rfl, fun x hmem => replay_touched _ ?_⟩
  simp only [List.mem_cons, List.mem_append, List.mem_flatMap]
  refine Or.inr (Or.inr (Or.inr ?_))
  rcases List.mem_append.1 hmem with h | h
  · exact Or.inl ⟨x, h, by simp [metadataEvents, metadataConfigEvents]⟩
  · simp at h
    subst h
    exact Or.inr htouch

/-- The witness for C5 (amended): the config request of `meta2` fails after `meta1` was
projected. -/
theorem metadata_failure_keeps_earlier_writes_witness :
    (cycle exampleTimeString metadataDownClient SamplerState.init).1 =
      .error (.fetchError (.GetMetadataConfig "meta2") "not found") := by
  have h := (metadata_failure_keeps_earlier_writes exampleTimeString metadataDownClient
    SamplerState.init fixtureRouter
    [⟨"meta1"⟩] ⟨"meta2"⟩ []
    (fun _ => ⟨"cluster1", 500, "grp1", [⟨"db1", 3306⟩, ⟨"db2", 3306⟩]⟩)
    (fun _ => ⟨0, ⟨1700000100, 0⟩, "db1", 3306⟩) (.GetMetadataConfig "meta2") "not found"
    rfl rfl (by simp [metadataDownClient, fixtureClient]) (by decide!)).1
  simpa using h

/-- The counterexample to C5: the config request of the second entry fails, the cycle aborts,
and the `metadata`, `metadata_config`, `metadata_config_node` and `metadata_status` series of
the first entry, absent before the cycle, are in the registry after it. -/
theorem failed_metadata_cycle_publishes :
    (cycle exampleTimeString metadataDownClient SamplerState.init).1 =
        .error (.fetchError (.GetMetadataConfig "meta2") "not found") ∧
      SamplerState.init.metrics .metadataGauge ["meta1"] = none ∧
      (cycle exampleTimeString metadataDownClient SamplerState.init).2.metrics
        .metadataGauge ["meta1"] = some 0 ∧
      (cycle exampleTimeString metadataDownClient SamplerState.init).2.metrics
        .metadataConfigGauge ["meta1", "cluster1", "500", "grp1"] = some 0 ∧
      (cycle exampleTimeString metadataDownClient SamplerState.init).2.metrics
        .metadataConfigNodeGauge ["meta1", "r1", "cluster1", "db1", "3306"] = some 0 ∧
      (cycle exampleTimeString metadataDownClient SamplerState.init).2.metrics
        .metadataStatusGauge ["meta1", "0", "1700000100.0", "db1", "3306"] = some 0 ∧
      (cycle exampleTimeString metadataDownClient SamplerState.init).2.metrics
        .metadataGauge ["meta2"] = some 0 := by
  decide!

end MysqlRouterExporter
